import Mathlib

/-!
# Smart dustbin controller: shallow embedding of `ESP32.c`

The combined controller sketch (`src/ESP32.c`) is embedded as pure functions
over an explicit `State`.

Modelling conventions.

* A `float` or `double` value is the rational number it denotes, and every
  floating-point operation is the exact operation followed by rounding to
  the nearest binary32 (`toFloat32`) or binary64 (`toFloat64`) number, ties
  to even, as IEEE 754 arithmetic does; comparisons are exact.  Infinities
  and NaN are not represented (no value of the program comes near the
  overflow threshold).  `unsigned long` values are naturals reduced modulo
  `2 ^ 32`, `long`/`int` values are integers.
* Everything the firmware does to the outside world is appended, in program
  order, to `State.trace`: serial output (`Serial.print`, `Serial.println`),
  the status LED, broker connect attempts, the broker service call and
  broker publishes.  Waiting (`delay`, `delayMicroseconds`), the trigger
  pulses of the rangers and the random client identifier are not traced.
* The environment is an explicit input: the echo durations returned by
  `pulseIn`, the result code of every `mqttClient.connect`, the liveness
  reported by `mqttClient.loop` and the value of `millis`.
* The broker session flag (`mqttClient.connected()`) is set by the connect
  handshake and cleared when the service call reports a lost link;
  `mqttClient.publish` reports success exactly when a session is up.
* A call that may not come back (the proximity sampler waits for three
  valid readings) yields `Outcome.stuck` with the state reached so far.
-/

namespace SmartBin

/-! ## Constants (`ESP32.c` lines 9-36) -/

/-- Broker topic of the fill level (line 12). -/
def TOPIC_FILL_LEVEL : String := "smartdustbin/filllevel"

/-- Broker topic of the lid state (line 13). -/
def TOPIC_LID_STATE : String := "smartdustbin/lidstate"

/-- Trigger pin of the fill ranger (line 16). -/
def FILL_TRIG_PIN : Int := 19

/-- Trigger pin of the proximity ranger (line 20). -/
def PROX_TRIG_PIN : Int := 5

/-- Bin height in centimetres (line 27). -/
def BIN_HEIGHT : ℚ := 42.0

/-- Fill percentage published when no valid reading is available (line 28). -/
def DEFAULT_FILL_LEVEL : ℚ := 20.0

/-- Lid threshold in centimetres (line 29). -/
def LID_PROXIMITY_THRESHOLD : ℚ := 50.0

/-- Period of the fill publish, a `long` (line 32). -/
def fillPublishInterval : Int := 10000

/-- Period of the proximity check, a `long` (line 33). -/
def proximityCheckInterval : Int := 200

/-! ## Observable events and program state -/

/-- One observable action of the firmware. -/
inductive Event where
  /-- Call `Serial.print(text)`. -/
  | print (text : String)
  /-- Call `Serial.println(text)`. -/
  | println (text : String)
  /-- Call `digitalWrite(LED_PIN, high)`. -/
  | led (high : Bool)
  /-- Call `mqttClient.connect(..)`, with the client state it leaves (0 is `MQTT_CONNECTED`). -/
  | connect (rc : Int)
  /-- Call `mqttClient.loop()`. -/
  | service
  /-- Call `mqttClient.publish(topic, payload, retained)`. -/
  | publish (topic payload : String) (retained : Bool)
deriving DecidableEq, Repr

/-- The globals of the sketch (lines 38-45) together with the trace of
observable actions performed so far. -/
structure State where
  /-- Session flag of `mqttClient`. -/
  connected : Bool
  /-- Global `firstReadingSent` (line 44). -/
  firstReadingSent : Bool
  /-- Global `isLidOpen` (line 45). -/
  isLidOpen : Bool
  /-- Global `lastFillPublishTime` (line 41). -/
  lastFillPublishTime : Nat
  /-- Global `lastProximityCheckTime` (line 42). -/
  lastProximityCheckTime : Nat
  /-- Observable actions so far, oldest first. -/
  trace : List Event
deriving DecidableEq, Repr

/-- The globals at their initialisers, before the first `loop()` iteration. -/
def boot : State :=
  { connected := false, firstReadingSent := false, isLidOpen := false,
    lastFillPublishTime := 0, lastProximityCheckTime := 0, trace := [] }

/-- Append one observable action to the trace. -/
def State.emit (s : State) (e : Event) : State :=
  { s with trace := s.trace ++ [e] }

/-- Result of a call: it came back with a state, or it did not come back and
the state is the one reached when it stopped making progress. -/
inductive Outcome where
  | returned (s : State)
  | stuck (s : State)
deriving DecidableEq, Repr

/-- The state carried by an outcome. -/
def Outcome.state : Outcome → State
  | .returned s => s
  | .stuck s => s

/-- Sequencing: continue with `f` only when the first call came back. -/
def Outcome.andThen (o : Outcome) (f : State → Outcome) : Outcome :=
  match o with
  | .returned s => f s
  | .stuck s => .stuck s

/-! ## Rounding -/

/-- Round a rational to the nearest integer, ties to even. -/
def roundHalfEven (q : ℚ) : Int :=
  let f := ⌊q⌋
  let d := q - f
  if d < 1 / 2 then f else if 1 / 2 < d then f + 1 else if f % 2 = 0 then f else f + 1

/-! ## Binary floating point -/

/-- Power of two with an integer exponent. -/
def pow2 (s : Int) : ℚ :=
  if 0 ≤ s then ((2 ^ s.toNat : Nat) : ℚ) else 1 / ((2 ^ (-s).toNat : Nat) : ℚ)

/-- Halving count behind `log2Nat`, bounded by `fuel`. -/
def log2Fuel : Nat → Nat → Nat
  | 0, _ => 0
  | fuel + 1, n => if 2 ≤ n then log2Fuel fuel (n / 2) + 1 else 0

/-- Floor of the base-2 logarithm of a natural number (0 for 0). -/
def log2Nat (n : Nat) : Nat := log2Fuel n n

/-- Exponent of a positive rational: the `e` with `2 ^ e ≤ a < 2 ^ (e + 1)`. -/
def floorLog2 (a : ℚ) : Int :=
  let k : Int := (log2Nat a.num.natAbs : Int) - (log2Nat a.den : Int)
  if pow2 k ≤ a then k else k - 1

/-- Rounding to the nearest binary floating-point number with `p` significant
bits and least normal exponent `emin`, ties to even: the value is rounded to a
multiple of its unit in the last place. -/
def roundToFormat (p : Nat) (emin : Int) (q : ℚ) : ℚ :=
  if q = 0 then 0
  else
    let ulp := pow2 (max (floorLog2 |q|) emin - ((p : Int) - 1))
    (if q < 0 then -1 else 1) * (roundHalfEven (|q| / ulp) : ℚ) * ulp

/-- Rounding to `float` (binary32). -/
def toFloat32 (q : ℚ) : ℚ := roundToFormat 24 (-126) q

/-- Rounding to `double` (binary64). -/
def toFloat64 (q : ℚ) : ℚ := roundToFormat 53 (-1022) q

/-! ## Number formatting done by the libraries -/

/-- Characters of a count of tenths: integer part, a point, one digit. -/
def tenthsText (n : Nat) : List Char :=
  (Nat.repr (n / 10)).data ++ ['.', Nat.digitChar (n % 10)]

/-- Text produced by `snprintf(msg, sizeof(msg), "%.1f", x)` (line 177): sign,
the value rounded to tenths, cut to the nine characters that fit
`char msg[10]` (line 176). -/
def snprintf1 (x : ℚ) : String :=
  String.mk (((if x < 0 then ['-'] else []) ++
    tenthsText (roundHalfEven (|x| * 10)).toNat).take 9)

/-- The fractional digits loop of `Print::printFloat`, in `double`
arithmetic: `remainder *= 10.0; toPrint = int(remainder); print(toPrint);
remainder -= toPrint`. -/
def fractionDigits : Nat → ℚ → List Char
  | 0, _ => []
  | k + 1, remainder =>
    let r := toFloat64 (remainder * 10)
    let toPrint := ⌊r⌋.toNat
    (Nat.repr toPrint).data ++ fractionDigits k (toFloat64 (r - toPrint))

/-- The rounding term of `Print::printFloat`: 0.5 divided `digits` times by
10.0 in `double` arithmetic. -/
def roundingTerm : Nat → ℚ
  | 0 => 0.5
  | k + 1 => toFloat64 (roundingTerm k / 10)

/-- Function `Print::printFloat(number, digits)`, the text `Serial.print` writes for a
`float` (two digits by default); `number` is the `float` converted to
`double`, and the arithmetic is that of `double`. -/
def printFloat (number : ℚ) (digits : Nat) : String :=
  if number > 4294967040 then "ovf"
  else if number < -4294967040 then "ovf"
  else
    let rounded := toFloat64 (|number| + roundingTerm digits)
    let int_part := ⌊rounded⌋.toNat
    let remainder := toFloat64 (rounded - int_part)
    (if number < 0 then "-" else "") ++ Nat.repr int_part
      ++ (if digits > 0 then "." else "") ++ String.mk (fractionDigits digits remainder)

/-- Text `Serial.print` writes for an `int`. -/
def printInt (n : Int) : String :=
  if n < 0 then "-" ++ Nat.repr n.natAbs else Nat.repr n.natAbs

/-! ## Clock arithmetic (`unsigned long`, 32 bits) -/

/-- Modulus of `unsigned long`. -/
def U32 : Nat := 4294967296

/-- Subtraction of two `unsigned long` values. -/
def subU32 (a b : Nat) : Nat := (a % U32 + (U32 - b % U32)) % U32

/-- Conversion of a `long` to `unsigned long` (usual arithmetic conversions). -/
def toU32 (x : Int) : Nat := (x % (U32 : Int)).toNat

/-- The interval test of `loop()` (lines 82 and 88):
`currentMillis - last >= interval`. -/
def intervalElapsed (currentMillis last : Nat) (interval : Int) : Bool :=
  decide (toU32 interval ≤ subU32 currentMillis last)

/-! ## Ranger (lines 138-172) -/

/-- Line 153, `float distance = duration * 0.034 / 2;`: the `long` duration
is converted to `double`, multiplied by the `double` constant 0.034 and divided
by 2 in `double` arithmetic, and the result is stored in a `float`. -/
def echoDistance (duration : Int) : ℚ :=
  toFloat32 (toFloat64 (toFloat64 (duration * toFloat64 0.034) / 2))

/-- Function `measureDistance(trigPin, echoPin)`; `duration` is what
`pulseIn(echoPin, HIGH, 15000)` returned (line 150), a `long`. -/
def measureDistance (trigPin : Int) (duration : Int) (s : State) : ℚ × State :=
  let distance : ℚ := echoDistance duration
  if duration = 0 then
    (-1, if trigPin = FILL_TRIG_PIN then
      s.emit (.println "⚠️ Warning: Echo timeout - sensor may be disconnected or out of range")
    else s)
  else if distance < 0.5 ∨ distance > 400 then
    (-1, if trigPin = FILL_TRIG_PIN then
      s.emit (.println "⚠️ Warning: Distance calculation out of valid range")
    else s)
  else (distance, s)

/-! ## Broker publishes (lines 174-202) -/

/-- Call `mqttClient.publish(topic, payload, retained)`: it is recorded and
reports success exactly when a session is up. -/
def mqttPublish (topic payload : String) (retained : Bool) (s : State) : Bool × State :=
  (s.connected, s.emit (.publish topic payload retained))

/-- Function `publishFillLevel(fillPercentage, retained)` (lines 174-188). -/
def publishFillLevel (fillPercentage : ℚ) (retained : Bool) (s : State) : Bool × State :=
  let msg := snprintf1 fillPercentage
  let r := mqttPublish TOPIC_FILL_LEVEL msg retained s
  let s := r.2.emit (.print "📤 Fill Level: ")
  let s := s.emit (.print msg)
  let s := s.emit (.print "% - MQTT Status: ")
  let s := s.emit (.println (if r.1 then "Published ✓" else "Failed ✗"))
  (r.1, s)

/-- Function `publishLidState(isOpen, retained)` (lines 190-202). -/
def publishLidState (isOpen : Bool) (retained : Bool) (s : State) : Bool × State :=
  let msg := if isOpen then "OPEN" else "CLOSED"
  let r := mqttPublish TOPIC_LID_STATE msg retained s
  let s := r.2.emit (.print "📤 Lid State: ")
  let s := s.emit (.print msg)
  let s := s.emit (.print " - MQTT Status: ")
  let s := s.emit (.println (if r.1 then "Published ✓" else "Failed ✗"))
  (r.1, s)

/-! ## Fill estimator (lines 204-236) -/

/-- The percentage of line 218, three `float` operations. -/
def rawFillPercentage (currentHeight : ℚ) : ℚ :=
  toFloat32 (toFloat32 (toFloat32 (BIN_HEIGHT - currentHeight) / BIN_HEIGHT) * 100)

/-- Line 221: `if (fillPercentage < 0) fillPercentage = 0;` -/
def clampLow (fillPercentage : ℚ) : ℚ :=
  if fillPercentage < 0 then 0 else fillPercentage

/-- Line 222: `if (fillPercentage > 100) fillPercentage = 100;` -/
def clampHigh (fillPercentage : ℚ) : ℚ :=
  if fillPercentage > 100 then 100 else fillPercentage

/-- Lines 207-235 of `measureAndPublishFillLevel`: what happens once the
ranger has returned `currentHeight`. -/
def fillLevelFromHeight (currentHeight : ℚ) (s : State) : State :=
  let s := s.emit (.print "📏 Current height: ")
  let s := s.emit (.print (printFloat currentHeight 2))
  let s := s.emit (.println " cm")
  if currentHeight ≤ 0 ∨ currentHeight > BIN_HEIGHT then
    let s := s.emit (.println "⚠️ Invalid fill level measurement, using default value")
    (publishFillLevel DEFAULT_FILL_LEVEL false s).2
  else
    let fillPercentage := rawFillPercentage currentHeight
    let fillPercentage := clampLow fillPercentage
    let fillPercentage := clampHigh fillPercentage
    let s := s.emit (.print "🧮 Calculation: ((")
    let s := s.emit (.print (printFloat BIN_HEIGHT 2))
    let s := s.emit (.print " - ")
    let s := s.emit (.print (printFloat currentHeight 2))
    let s := s.emit (.print ") / ")
    let s := s.emit (.print (printFloat BIN_HEIGHT 2))
    let s := s.emit (.print ") * 100 = ")
    let s := s.emit (.print (printFloat fillPercentage 2))
    let s := s.emit (.println "%")
    (publishFillLevel fillPercentage false s).2

/-- Function `measureAndPublishFillLevel()` (lines 204-236); `duration` is the echo
the fill ranger sees. -/
def measureAndPublishFillLevel (duration : Int) (s : State) : State :=
  let r := measureDistance FILL_TRIG_PIN duration s
  fillLevelFromHeight r.1 r.2

/-! ## Lid controller (lines 238-279) -/

/-- The sampling loop of lines 243-254: `i` valid readings have been added
into the `float` `avgDistance`; each echo of `echoes` is one `measureDistance` call.
`none` when the echoes end before three valid readings were seen. -/
def sampleProximity : List Int → Nat → ℚ → State → Option (ℚ × State)
  | [], i, avgDistance, s => if i < 3 then none else some (avgDistance, s)
  | duration :: echoes, i, avgDistance, s =>
    if i < 3 then
      let r := measureDistance PROX_TRIG_PIN duration s
      if r.1 > 0 then sampleProximity echoes (i + 1) (toFloat32 (avgDistance + r.1)) r.2
      else sampleProximity echoes i avgDistance r.2
    else some (avgDistance, s)

/-- Lines 258-278 of `checkProximityAndControlLid`: what happens once the
average `avgDistance` is known. -/
def lidControl (avgDistance : ℚ) (s : State) : State :=
  let s := s.emit (.print "D:")
  let s := s.emit (.println (printFloat avgDistance 2))
  if avgDistance < LID_PROXIMITY_THRESHOLD ∧ s.isLidOpen = false then
    let s := s.emit (.println "O:1")
    let s := s.emit (.led true)
    let s := { s with isLidOpen := true }
    (publishLidState s.isLidOpen false s).2
  else if avgDistance ≥ LID_PROXIMITY_THRESHOLD ∧ s.isLidOpen = true then
    let s := s.emit (.println "O:0")
    let s := s.emit (.led false)
    let s := { s with isLidOpen := false }
    (publishLidState s.isLidOpen false s).2
  else s

/-- Function `checkProximityAndControlLid()` (lines 238-279); `echoes` are the echo
durations the proximity ranger sees, one per `measureDistance` call. -/
def checkProximityAndControlLid (echoes : List Int) (s : State) : Outcome :=
  match sampleProximity echoes 0 0 s with
  | none => .stuck s
  | some (sum, s) => .returned (lidControl (toFloat32 (sum / 3)) s)

/-! ## Broker session (lines 109-136) -/

/-- Lines 122-127: the retained defaults sent under the `firstReadingSent`
latch. -/
def seedDefaults (s : State) : State :=
  if s.firstReadingSent = false then
    let s := (publishFillLevel DEFAULT_FILL_LEVEL true s).2
    let s := (publishLidState s.isLidOpen true s).2
    let s := { s with firstReadingSent := true }
    s.emit (.println "✅ Default values published with retained flag")
  else s

/-- The `while` loop of `reconnectMQTT` (lines 111-135).  `retry` is the
local counter, `attempt` counts the connect calls made so far in this
invocation and `connectRc attempt` is the client state the next call
leaves (0 is `MQTT_CONNECTED`).  `fuel` bounds the number of loop tests. -/
def reconnectLoop (connectRc : Nat → Int) : Nat → Nat → Nat → State → Outcome
  | 0, _, _, s => .stuck s
  | fuel + 1, retry, attempt, s =>
    if s.connected = false ∧ retry < 3 then
      let s := s.emit (.print "Attempting MQTT connection...")
      let rc := connectRc attempt
      let s := { s.emit (.connect rc) with connected := decide (rc = 0) }
      if rc = 0 then
        let s := s.emit (.println "✅ Connected to MQTT Broker")
        let s := seedDefaults s
        reconnectLoop connectRc fuel retry (attempt + 1) s
      else
        let s := s.emit (.print "❌ MQTT failed, rc=")
        let s := s.emit (.print (printInt rc))
        let s := s.emit (.println " - retrying...")
        reconnectLoop connectRc fuel (retry + 1) (attempt + 1) s
    else .returned s

/-- Function `reconnectMQTT()` (lines 109-136); the fuel of four loop tests is
enough for every input (see `reconnectLoop_fuel`). -/
def reconnectMQTT (connectRc : Nat → Int) (s : State) : Outcome :=
  reconnectLoop connectRc 4 0 0 s

/-! ## Scheduler (lines 71-92) -/

/-- What the environment supplies to one iteration of `loop()`. -/
structure TickInput where
  /-- Client state left by the k-th `mqttClient.connect` of this iteration. -/
  connectRc : Nat → Int
  /-- Whether `mqttClient.loop()` finds the session still alive. -/
  linkUp : Bool
  /-- Value of `millis()`. -/
  now : Nat
  /-- Echo durations seen by the proximity ranger. -/
  proxEchoes : List Int
  /-- Echo duration seen by the fill ranger. -/
  fillEcho : Int

/-- Call `mqttClient.loop()` (line 75): the service call is recorded and the
session flag is cleared when the link is found lost. -/
def mqttLoop (linkUp : Bool) (s : State) : State :=
  { s.emit .service with connected := s.connected && linkUp }

/-- One iteration of `loop()` (lines 71-92). -/
def loop (inp : TickInput) (s : State) : Outcome :=
  (if s.connected = false then reconnectMQTT inp.connectRc s else .returned s).andThen fun s =>
  let s := mqttLoop inp.linkUp s
  let currentMillis := inp.now % U32
  (if intervalElapsed currentMillis s.lastProximityCheckTime proximityCheckInterval then
    checkProximityAndControlLid inp.proxEchoes { s with lastProximityCheckTime := currentMillis }
  else .returned s).andThen fun s =>
  if intervalElapsed currentMillis s.lastFillPublishTime fillPublishInterval then
    .returned (measureAndPublishFillLevel inp.fillEcho { s with lastFillPublishTime := currentMillis })
  else .returned s

/-- The scheduler: `loop()` iterated over the inputs of successive
iterations; it stops at an iteration that does not come back. -/
def run : List TickInput → State → Outcome
  | [], s => .returned s
  | inp :: rest, s =>
    match loop inp s with
    | .returned s => run rest s
    | .stuck s => .stuck s

/-! ## Reading a trace -/

/-- Whether an event is a broker publish. -/
def Event.isPublish : Event → Bool
  | .publish _ _ _ => true
  | _ => false

/-- Whether an event is a retained broker publish. -/
def Event.isRetained : Event → Bool
  | .publish _ _ retained => retained
  | _ => false

/-- Whether an event is a retained publish on `topic`. -/
def Event.isRetainedOn (topic : String) : Event → Bool
  | .publish t _ retained => retained && decide (t = topic)
  | _ => false

/-- Whether an event is serial output. -/
def Event.isSerial : Event → Bool
  | .print _ => true
  | .println _ => true
  | _ => false

/-- Whether an event is a connect attempt. -/
def Event.isConnect : Event → Bool
  | .connect _ => true
  | _ => false

/-- Whether an event is a connect attempt that established a session. -/
def Event.isConnectOk : Event → Bool
  | .connect rc => decide (rc = 0)
  | _ => false

/-- The actions performed between state `s` and the later state `t`. -/
def emitted (s t : State) : List Event := t.trace.drop s.trace.length

/-! ## The spec's wording, for comparison -/

/-- The spec's clamp of a value to the interval from `lo` to `hi`. -/
def clampSpec (x lo hi : ℚ) : ℚ := max lo (min x hi)

/-! ## Vocabulary of the statements -/

/-- A lid command (`O:1` or `O:0`) is among the actions. -/
def commandWritten (new : List Event) : Prop :=
  Event.println "O:1" ∈ new ∨ Event.println "O:0" ∈ new

/-- Whether a lid command was written can be computed. -/
instance decidableCommandWritten (new : List Event) : Decidable (commandWritten new) := by
  unfold commandWritten
  infer_instance

/-- Number of echoes the ranger accepts as a valid proximity reading. -/
def validReadings (echoes : List Int) : Nat :=
  (echoes.filter fun d => decide (0 < (measureDistance PROX_TRIG_PIN d boot).1)).length

/-- What C3 says of one invocation that takes the controller from `s` to `t`
on the average `avg`: a lid command is written exactly when the lid state
changed, and without a change the `D:` line is all that happens. -/
def EdgeTriggered (avg : ℚ) (s t : State) : Prop :=
  (commandWritten (emitted s t) ↔ t.isLidOpen ≠ s.isLidOpen) ∧
  (t.isLidOpen = s.isLidOpen → emitted s t = [.print "D:", .println (printFloat avg 2)])

/-- The property `EdgeTriggered` can be computed. -/
instance decidableEdgeTriggered (avg : ℚ) (s t : State) : Decidable (EdgeTriggered avg s t) := by
  unfold EdgeTriggered
  infer_instance

/-- The actions of lines 122-127 from state `s` (none once the latch is set). -/
def seedEvents (s : State) : List Event :=
  if s.firstReadingSent = false then
    [.publish TOPIC_FILL_LEVEL "20.0" true,
     .print "📤 Fill Level: ", .print "20.0", .print "% - MQTT Status: ",
     .println (if s.connected then "Published ✓" else "Failed ✗"),
     .publish TOPIC_LID_STATE (if s.isLidOpen then "OPEN" else "CLOSED") true,
     .print "📤 Lid State: ", .print (if s.isLidOpen then "OPEN" else "CLOSED"),
     .print " - MQTT Status: ",
     .println (if s.connected then "Published ✓" else "Failed ✗"),
     .println "✅ Default values published with retained flag"]
  else []

/-- The actions of one pass through the loop body whose connect fails. -/
def failedEvents (rc : Int) : List Event :=
  [.print "Attempting MQTT connection...", .connect rc, .print "❌ MQTT failed, rc=",
   .print (printInt rc), .println " - retrying..."]

/-- The actions of one pass through the loop body whose connect succeeds. -/
def connectedEvents (s : State) : List Event :=
  [.print "Attempting MQTT connection...", .connect 0,
    .println "✅ Connected to MQTT Broker"] ++ seedEvents { s with connected := true }

/-- State after one pass through the loop body whose connect fails with `rc`. -/
def afterFailedAttempt (rc : Int) (s : State) : State :=
  { s with
    connected := false
    trace := s.trace ++ failedEvents rc }

/-- State after one pass through the loop body whose connect succeeds. -/
def afterConnect (s : State) : State :=
  { s with
    connected := true
    firstReadingSent := true
    trace := s.trace ++ connectedEvents s }

/-- Whether an event is the broker service call. -/
def Event.isService : Event → Bool
  | .service => true
  | _ => false

/-- Events that are neither a connect attempt, nor the service call, nor a
retained publish. -/
def Event.isQuiet : Event → Bool
  | .print _ => true
  | .println _ => true
  | .led _ => true
  | .publish _ _ retained => !retained
  | .connect _ => false
  | .service => false

/-- Lines 75-91 of `loop()`: the service call and the two periodic tasks. -/
def loopTail (inp : TickInput) (s : State) : Outcome :=
  let s := mqttLoop inp.linkUp s
  let currentMillis := inp.now % U32
  (if intervalElapsed currentMillis s.lastProximityCheckTime proximityCheckInterval then
    checkProximityAndControlLid inp.proxEchoes { s with lastProximityCheckTime := currentMillis }
  else .returned s).andThen fun s =>
  if intervalElapsed currentMillis s.lastFillPublishTime fillPublishInterval then
    .returned (measureAndPublishFillLevel inp.fillEcho { s with lastFillPublishTime := currentMillis })
  else .returned s

/-- What an operation that only adds quiet events does to the state. -/
def QuietStep (s t : State) : Prop :=
  ∃ new, t.trace = s.trace ++ new ∧ new.all Event.isQuiet = true ∧
    t.firstReadingSent = s.firstReadingSent

/-- The retained seed pair as line 123-124 publish it from state `s`. -/
def seedPair (s : State) : List Event :=
  [.publish TOPIC_FILL_LEVEL "20.0" true,
   .publish TOPIC_LID_STATE (if s.isLidOpen then "OPEN" else "CLOSED") true]

/-- The ordering C7 states for the events of one iteration: no publish comes
before the (first) service call. -/
def servicePrecedesPublishes (new : List Event) : Bool :=
  (new.takeWhile fun e => !e.isService).all fun e => !e.isPublish

/-- The ordering that holds: no publish without the retained flag comes before
the (first) service call. -/
def servicePrecedesUnretained (new : List Event) : Bool :=
  (new.takeWhile fun e => !e.isService).all fun e => !e.isPublish || e.isRetained

/-- An iteration right after boot in which the first connect succeeds; the lid
sees 51 cm and the fill task is not yet due. -/
def firstTick : TickInput :=
  { connectRc := fun _ => 0, linkUp := true, now := 2500,
    proxEchoes := [3000, 3000, 3000], fillEcho := 0 }

/-- Number of retained publishes on `topic` in a trace. -/
def retainedOn (topic : String) (tr : List Event) : Nat :=
  (tr.filter (Event.isRetainedOn topic)).length

/-- The one-shot invariant of the retained seed: the latch is set exactly when
a connect has succeeded, and the trace holds one retained publish per topic
(two in all) when it is set and none when it is not. -/
def OneShot (s : State) : Prop :=
  s.firstReadingSent = s.trace.any Event.isConnectOk ∧
  retainedOn TOPIC_FILL_LEVEL s.trace = (if s.firstReadingSent then 1 else 0) ∧
  retainedOn TOPIC_LID_STATE s.trace = (if s.firstReadingSent then 1 else 0) ∧
  (s.trace.filter Event.isRetained).length = (if s.firstReadingSent then 2 else 0)

/-- The invariant `OneShot` can be computed. -/
instance decidableOneShot (s : State) : Decidable (OneShot s) := by
  unfold OneShot
  infer_instance

/-- An iteration in which all three connect attempts fail while a hand at
17 cm opens the lid. -/
def failedRound : TickInput :=
  { connectRc := fun _ => -2, linkUp := true, now := 8000,
    proxEchoes := [1000, 1000, 1000], fillEcho := 0 }

/-- The next iteration, in which the first connect attempt succeeds while the
hand is still there. -/
def connectingRound : TickInput :=
  { connectRc := fun _ => 0, linkUp := true, now := 8400,
    proxEchoes := [1000, 1000, 1000], fillEcho := 0 }

/-! ## Basic facts -/

theorem emitted_of_trace_eq {s t : State} {new : List Event}
    (h : t.trace = s.trace ++ new) : emitted s t = new := by
  simp [emitted, h]

theorem clamp_code_eq_spec (x : ℚ) : clampHigh (clampLow x) = clampSpec x 0 100 := by
  unfold clampHigh clampLow clampSpec
  by_cases h0 : x < 0
  · have h2 : min x 100 = x := min_eq_left (by linarith)
    simp [h0, h2, max_eq_left (le_of_lt h0)]
  · by_cases h1 : x > 100
    · simp [h0, h1, min_eq_right (le_of_lt h1)]
    · push_neg at h0 h1
      simp [not_lt.mpr h0, not_lt.mpr h1, min_eq_left h1, max_eq_right h0]

theorem measureAndPublishFillLevel_eq (duration : Int) (s : State) :
    measureAndPublishFillLevel duration s =
      fillLevelFromHeight (measureDistance FILL_TRIG_PIN duration s).1
        (measureDistance FILL_TRIG_PIN duration s).2 := rfl

/-- The fill estimator on the computing branch. -/
theorem fillLevelFromHeight_valid (r : ℚ) (s : State) (h0 : 0 < r) (hH : r ≤ BIN_HEIGHT) :
    fillLevelFromHeight r s = { s with trace := s.trace ++
      [.print "📏 Current height: ", .print (printFloat r 2), .println " cm",
       .print "🧮 Calculation: ((", .print (printFloat BIN_HEIGHT 2), .print " - ",
       .print (printFloat r 2), .print ") / ", .print (printFloat BIN_HEIGHT 2),
       .print ") * 100 = ", .print (printFloat (clampHigh (clampLow (rawFillPercentage r))) 2),
       .println "%",
       .publish TOPIC_FILL_LEVEL (snprintf1 (clampHigh (clampLow (rawFillPercentage r)))) false,
       .print "📤 Fill Level: ", .print (snprintf1 (clampHigh (clampLow (rawFillPercentage r)))),
       .print "% - MQTT Status: ",
       .println (if s.connected then "Published ✓" else "Failed ✗")] } := by
  have hc : ¬ (r ≤ 0 ∨ r > BIN_HEIGHT) := by
    push_neg; exact ⟨h0, hH⟩
  simp [fillLevelFromHeight, hc, publishFillLevel, mqttPublish, State.emit]

/-- The fill estimator on the default branch. -/
theorem fillLevelFromHeight_default (r : ℚ) (s : State) (h : r ≤ 0 ∨ BIN_HEIGHT < r) :
    fillLevelFromHeight r s = { s with trace := s.trace ++
      [.print "📏 Current height: ", .print (printFloat r 2), .println " cm",
       .println "⚠️ Invalid fill level measurement, using default value",
       .publish TOPIC_FILL_LEVEL "20.0" false,
       .print "📤 Fill Level: ", .print "20.0",
       .print "% - MQTT Status: ",
       .println (if s.connected then "Published ✓" else "Failed ✗")] } := by
  have hc : (r ≤ 0 ∨ r > BIN_HEIGHT) := h
  have hd : snprintf1 DEFAULT_FILL_LEVEL = "20.0" := by decide!
  simp [fillLevelFromHeight, hc, publishFillLevel, mqttPublish, State.emit, hd]

/-- Trace of the fill estimator on the computing branch. -/
theorem fillLevelFromHeight_valid_trace (r : ℚ) (s : State) (h0 : 0 < r) (hH : r ≤ BIN_HEIGHT) :
    (fillLevelFromHeight r s).trace = s.trace ++
      [.print "📏 Current height: ", .print (printFloat r 2), .println " cm",
       .print "🧮 Calculation: ((", .print (printFloat BIN_HEIGHT 2), .print " - ",
       .print (printFloat r 2), .print ") / ", .print (printFloat BIN_HEIGHT 2),
       .print ") * 100 = ", .print (printFloat (clampHigh (clampLow (rawFillPercentage r))) 2),
       .println "%",
       .publish TOPIC_FILL_LEVEL (snprintf1 (clampHigh (clampLow (rawFillPercentage r)))) false,
       .print "📤 Fill Level: ", .print (snprintf1 (clampHigh (clampLow (rawFillPercentage r)))),
       .print "% - MQTT Status: ",
       .println (if s.connected then "Published ✓" else "Failed ✗")] := by
  rw [fillLevelFromHeight_valid r s h0 hH]

/-- Trace of the fill estimator on the default branch. -/
theorem fillLevelFromHeight_default_trace (r : ℚ) (s : State) (h : r ≤ 0 ∨ BIN_HEIGHT < r) :
    (fillLevelFromHeight r s).trace = s.trace ++
      [.print "📏 Current height: ", .print (printFloat r 2), .println " cm",
       .println "⚠️ Invalid fill level measurement, using default value",
       .publish TOPIC_FILL_LEVEL "20.0" false,
       .print "📤 Fill Level: ", .print "20.0",
       .print "% - MQTT Status: ",
       .println (if s.connected then "Published ✓" else "Failed ✗")] := by
  rw [fillLevelFromHeight_default r s h]

/-- The ranger returns the sentinel, or a distance of at least half a
centimetre and at most 400 cm without touching the state. -/
theorem measureDistance_cases (trigPin duration : Int) (s : State) :
    ((measureDistance trigPin duration s).1 = -1 ∧
      ∃ log, (measureDistance trigPin duration s).2.trace = s.trace ++ log ∧
        ∀ e ∈ log, e.isSerial = true) ∨
    ((measureDistance trigPin duration s).1 = echoDistance duration ∧
      (1 / 2 : ℚ) ≤ echoDistance duration ∧ echoDistance duration ≤ 400 ∧
      (measureDistance trigPin duration s).2 = s) := by
  unfold measureDistance
  by_cases hd : duration = 0
  · left
    by_cases hp : trigPin = FILL_TRIG_PIN
    · simp [hd, hp, State.emit, Event.isSerial]
    · simp [hd, hp]
  · by_cases hr : (echoDistance duration < 0.5 ∨ echoDistance duration > 400)
    · left
      by_cases hp : trigPin = FILL_TRIG_PIN
      · simp [hd, hr, hp, State.emit, Event.isSerial]
      · simp [hd, hr, hp]
    · right
      simp only [hd, hr, if_false]
      push_neg at hr
      refine ⟨trivial, ?_, hr.2, trivial⟩
      have := hr.1
      norm_num at this ⊢
      linarith

theorem roundHalfEven_le (x : ℚ) (k : Int) (hx : x < k + 1 / 2) : roundHalfEven x ≤ k := by
  unfold roundHalfEven
  have hf : (⌊x⌋ : ℚ) ≤ x := Int.floor_le x
  have hfk : ⌊x⌋ ≤ k := by
    have h1 : (⌊x⌋ : ℚ) < ((k + 1 : Int) : ℚ) := by push_cast; linarith
    have := Int.cast_lt.mp h1
    omega
  simp only
  split_ifs with h1 h2 h3
  · exact hfk
  · rcases lt_or_eq_of_le hfk with hlt | heq
    · omega
    · exfalso; rw [heq] at h2; linarith
  · exact hfk
  · rcases lt_or_eq_of_le hfk with hlt | heq
    · omega
    · exfalso; rw [heq] at h1; linarith

theorem roundHalfEven_nonneg (x : ℚ) (hx : 0 ≤ x) : 0 ≤ roundHalfEven x := by
  unfold roundHalfEven
  have hf : 0 ≤ ⌊x⌋ := Int.floor_nonneg.mpr hx
  simp only
  split_ifs <;> omega

theorem pow2_eq_zpow (s : Int) : pow2 s = (2 : ℚ) ^ s := by
  unfold pow2
  split_ifs with h
  · obtain ⟨n, rfl⟩ := Int.eq_ofNat_of_zero_le h
    simp
  · push_neg at h
    obtain ⟨n, hn⟩ := Int.eq_ofNat_of_zero_le (by omega : 0 ≤ -s)
    have hs : s = -(n : Int) := by omega
    subst hs
    simp

theorem pow2_pos (s : Int) : 0 < pow2 s := by
  rw [pow2_eq_zpow]; positivity

theorem pow2_sub (a b : Int) : pow2 (a - b) = pow2 a / pow2 b := by
  simp only [pow2_eq_zpow]
  rw [zpow_sub₀ (by norm_num : (2 : ℚ) ≠ 0)]

theorem pow2_le_pow2 {a b : Int} (h : a ≤ b) : pow2 a ≤ pow2 b := by
  simp only [pow2_eq_zpow]
  exact zpow_le_zpow_right₀ (by norm_num) h

theorem log2Fuel_eq (fuel n : Nat) (h : n ≤ fuel) : log2Fuel fuel n = Nat.log2 n := by
  induction fuel generalizing n with
  | zero =>
    have : n = 0 := by omega
    subst this
    rw [log2Fuel, Nat.log2]
    simp
  | succ f ih =>
    rw [log2Fuel, Nat.log2]
    by_cases h2 : 2 ≤ n
    · have hle : n / 2 ≤ f := by omega
      simp [h2, ih (n / 2) hle]
    · simp [h2]

theorem log2Nat_eq (n : Nat) : log2Nat n = Nat.log2 n := log2Fuel_eq n n le_rfl

theorem pow2_floorLog2_le (a : ℚ) (ha : 0 < a) : pow2 (floorLog2 a) ≤ a := by
  unfold floorLog2
  simp only
  split_ifs with h
  · exact h
  · have hnum : 0 < a.num := Rat.num_pos.mpr ha
    have hn0 : a.num.natAbs ≠ 0 := by omega
    have hd0 : a.den ≠ 0 := a.den_nz
    simp only [log2Nat_eq]
    have h1 : 2 ^ Nat.log2 a.num.natAbs ≤ a.num.natAbs := Nat.log2_self_le hn0
    have h2 : a.den < 2 ^ (Nat.log2 a.den + 1) := Nat.lt_log2_self
    have hcast : (a.num.natAbs : ℚ) = (a.num : ℚ) := by
      have h3 : ((a.num.natAbs : Nat) : Int) = a.num := Int.natAbs_of_nonneg hnum.le
      have h4 : (a.num.natAbs : ℚ) = (((a.num.natAbs : Nat) : Int) : ℚ) :=
        (Int.cast_natCast _).symm
      rw [h4, h3]
    have ha' : a = (a.num.natAbs : ℚ) / (a.den : ℚ) := by
      rw [hcast]; exact (Rat.num_div_den a).symm
    have e : (Nat.log2 a.num.natAbs : Int) - (Nat.log2 a.den : Int) - 1
        = (Nat.log2 a.num.natAbs : Int) - ((Nat.log2 a.den + 1 : Nat) : Int) := by
      push_cast; ring
    rw [e, pow2_sub, pow2_eq_zpow, pow2_eq_zpow, zpow_natCast, zpow_natCast]
    have h1q : ((2 : ℚ) ^ Nat.log2 a.num.natAbs) ≤ (a.num.natAbs : ℚ) := by exact_mod_cast h1
    have h2q : (a.den : ℚ) ≤ (2 : ℚ) ^ (Nat.log2 a.den + 1) := by exact_mod_cast h2.le
    have hdpos : (0 : ℚ) < a.den := by exact_mod_cast Nat.pos_of_ne_zero hd0
    calc (2 : ℚ) ^ Nat.log2 a.num.natAbs / 2 ^ (Nat.log2 a.den + 1)
        ≤ (a.num.natAbs : ℚ) / (a.den : ℚ) :=
          div_le_div₀ (by positivity) h1q hdpos h2q
      _ = a := ha'.symm

theorem roundHalfEven_near (x : ℚ) : |(roundHalfEven x : ℚ) - x| ≤ 1 / 2 := by
  unfold roundHalfEven
  have hf : (⌊x⌋ : ℚ) ≤ x := Int.floor_le x
  have hc : x < (⌊x⌋ : ℚ) + 1 := Int.lt_floor_add_one x
  simp only
  rw [abs_le]
  split_ifs with h1 h2 h3
  · constructor <;> linarith
  · push_cast; constructor <;> linarith
  · constructor <;> linarith
  · push_cast; constructor <;> linarith

/-- Rounding moves a value by at most half a unit in the last place. -/
theorem roundToFormat_err (p : Nat) (emin : Int) (q : ℚ) :
    |roundToFormat p emin q - q| ≤ |q| / 2 ^ p + pow2 (emin - p) := by
  unfold roundToFormat
  by_cases hq : q = 0
  · simp [hq]
    exact (pow2_pos _).le
  · simp only [hq, if_false]
    have habs : 0 < abs q := abs_pos.mpr hq
    set a := abs q with ha
    set e := max (floorLog2 a) emin with he
    set ulp := pow2 (e - ((p : Int) - 1)) with hulp
    have hup : 0 < ulp := pow2_pos _
    have hm := roundHalfEven_near (a / ulp)
    have herr : |(roundHalfEven (a / ulp) : ℚ) * ulp - a| ≤ ulp / 2 := by
      have h1 : (roundHalfEven (a / ulp) : ℚ) * ulp - a =
          ((roundHalfEven (a / ulp) : ℚ) - a / ulp) * ulp := by
        field_simp
      rw [h1, abs_mul, abs_of_pos hup]
      have hstep : |(roundHalfEven (a / ulp) : ℚ) - a / ulp| * ulp ≤ 1 / 2 * ulp :=
        mul_le_mul_of_nonneg_right hm hup.le
      linarith
    have hulpb : ulp / 2 ≤ a / 2 ^ p + pow2 (emin - p) := by
      have h2p : (0 : ℚ) < 2 ^ p := by positivity
      rcases le_total emin (floorLog2 a) with hle | hle
      · have hee : e = floorLog2 a := max_eq_left hle
        have hu : ulp = pow2 (floorLog2 a) / pow2 ((p : Int) - 1) := by
          rw [hulp, hee, pow2_sub]
        have hp1 : pow2 ((p : Int) - 1) = 2 ^ p / 2 := by
          rw [pow2_sub, pow2_eq_zpow, pow2_eq_zpow]; simp
        have hfl := pow2_floorLog2_le a habs
        have h3 : ulp / 2 = pow2 (floorLog2 a) / 2 ^ p := by
          rw [hu, hp1]; field_simp; ring
        have h4 : pow2 (floorLog2 a) / 2 ^ p ≤ a / 2 ^ p :=
          div_le_div_of_nonneg_right hfl h2p.le
        have := pow2_pos (emin - p)
        linarith
      · have hee : e = emin := max_eq_right hle
        have hu : ulp / 2 = pow2 (emin - p) := by
          rw [hulp, hee]
          have h5 : emin - ((p : Int) - 1) = (emin - p) + 1 := by ring
          rw [h5]
          simp only [pow2_eq_zpow]
          rw [zpow_add_one₀ (by norm_num : (2 : ℚ) ≠ 0)]
          ring
        have : 0 ≤ a / 2 ^ p := by positivity
        linarith
    by_cases hneg : q < 0
    · simp only [hneg, if_true]
      have h6 : -1 * (roundHalfEven (a / ulp) : ℚ) * ulp - q =
          -((roundHalfEven (a / ulp) : ℚ) * ulp - a) := by
        rw [ha, abs_of_neg hneg]; ring
      rw [h6, abs_neg]
      exact le_trans herr hulpb
    · simp only [hneg, if_false]
      have hqa : a = q := abs_of_nonneg (not_lt.mp hneg)
      have h6 : 1 * (roundHalfEven (a / ulp) : ℚ) * ulp - q =
          (roundHalfEven (a / ulp) : ℚ) * ulp - a := by
        rw [hqa]; ring
      rw [h6]
      exact le_trans herr hulpb

theorem roundToFormat_nonneg (p : Nat) (emin : Int) (q : ℚ) (hq : 0 ≤ q) :
    0 ≤ roundToFormat p emin q := by
  unfold roundToFormat
  split_ifs with h0 hneg
  · exact le_rfl
  · exact absurd hq (not_le.mpr hneg)
  · have h1 : 0 ≤ roundHalfEven (|q| / pow2 (max (floorLog2 |q|) emin - ((p : Int) - 1))) :=
      roundHalfEven_nonneg _ (div_nonneg (abs_nonneg q) (pow2_pos _).le)
    have h2 : (0 : ℚ) ≤ (roundHalfEven (|q| / pow2 (max (floorLog2 |q|) emin - ((p : Int) - 1))) : ℚ) := by
      exact_mod_cast h1
    have := pow2_pos (max (floorLog2 |q|) emin - ((p : Int) - 1))
    positivity

theorem roundToFormat_nonpos (p : Nat) (emin : Int) (q : ℚ) (hq : q ≤ 0) :
    roundToFormat p emin q ≤ 0 := by
  unfold roundToFormat
  split_ifs with h0 hneg
  · exact le_rfl
  · have h1 : 0 ≤ roundHalfEven (|q| / pow2 (max (floorLog2 |q|) emin - ((p : Int) - 1))) :=
      roundHalfEven_nonneg _ (div_nonneg (abs_nonneg q) (pow2_pos _).le)
    have h2 : (0 : ℚ) ≤ (roundHalfEven (|q| / pow2 (max (floorLog2 |q|) emin - ((p : Int) - 1))) : ℚ) := by
      exact_mod_cast h1
    have := pow2_pos (max (floorLog2 |q|) emin - ((p : Int) - 1))
    nlinarith [mul_nonneg h2 this.le]
  · exact absurd (le_antisymm hq (not_lt.mp hneg)) h0

/-- Error of rounding a non-negative value to `float`. -/
theorem toFloat32_bounds (x : ℚ) (hx : 0 ≤ x) :
    x - (x * (6 / 10 ^ 8) + 1 / 10 ^ 45) ≤ toFloat32 x ∧
    toFloat32 x ≤ x + (x * (6 / 10 ^ 8) + 1 / 10 ^ 45) ∧ 0 ≤ toFloat32 x := by
  have h := roundToFormat_err 24 (-126) x
  rw [abs_of_nonneg hx, abs_le] at h
  have hp : pow2 (-126 - ((24 : Nat) : Int)) ≤ 1 / 10 ^ 45 := by decide!
  have hd : x / 2 ^ 24 ≤ x * (6 / 10 ^ 8) := by
    have h1 : (1 : ℚ) / 2 ^ 24 ≤ 6 / 10 ^ 8 := by norm_num
    have h2 := mul_le_mul_of_nonneg_left h1 hx
    calc x / 2 ^ 24 = x * (1 / 2 ^ 24) := by ring
      _ ≤ x * (6 / 10 ^ 8) := h2
  unfold toFloat32
  refine ⟨by linarith [h.1], by linarith [h.2], roundToFormat_nonneg _ _ _ hx⟩

/-- Error of rounding a non-negative value to `double`. -/
theorem toFloat64_bounds (x : ℚ) (hx : 0 ≤ x) :
    x - (x * (2 / 10 ^ 16) + 1 / 10 ^ 300) ≤ toFloat64 x ∧
    toFloat64 x ≤ x + (x * (2 / 10 ^ 16) + 1 / 10 ^ 300) ∧ 0 ≤ toFloat64 x := by
  have h := roundToFormat_err 53 (-1022) x
  rw [abs_of_nonneg hx, abs_le] at h
  have hp : pow2 (-1022 - ((53 : Nat) : Int)) ≤ 1 / 10 ^ 300 := by decide!
  have hd : x / 2 ^ 53 ≤ x * (2 / 10 ^ 16) := by
    have h1 : (1 : ℚ) / 2 ^ 53 ≤ 2 / 10 ^ 16 := by norm_num
    have h2 := mul_le_mul_of_nonneg_left h1 hx
    calc x / 2 ^ 53 = x * (1 / 2 ^ 53) := by ring
      _ ≤ x * (2 / 10 ^ 16) := h2
  unfold toFloat64
  refine ⟨by linarith [h.1], by linarith [h.2], roundToFormat_nonneg _ _ _ hx⟩

/-- The `double` constant 0.034 of line 153. -/
theorem double_0_034 : toFloat64 0.034 = 1224979098644775 / 36028797018963968 := by
  decide!

/-- An echo duration that is not positive gives no positive distance. -/
theorem echoDistance_nonpos (duration : Int) (h : duration ≤ 0) : echoDistance duration ≤ 0 := by
  unfold echoDistance toFloat32 toFloat64
  have hd : (duration : ℚ) ≤ 0 := by exact_mod_cast h
  have hc : (0 : ℚ) ≤ roundToFormat 53 (-1022) 0.034 := roundToFormat_nonneg _ _ _ (by norm_num)
  have h1 : (duration : ℚ) * roundToFormat 53 (-1022) 0.034 ≤ 0 :=
    mul_nonpos_of_nonpos_of_nonneg hd hc
  have h2 := roundToFormat_nonpos 53 (-1022) _ h1
  have h3 : roundToFormat 53 (-1022) ((duration : ℚ) * roundToFormat 53 (-1022) 0.034) / 2 ≤ 0 := by
    linarith
  exact roundToFormat_nonpos 24 (-126) _ (roundToFormat_nonpos 53 (-1022) _ h3)

/-- The distance computed from a positive echo duration is 0.017 cm per
microsecond up to one part in a million. -/
theorem echoDistance_bounds (duration : Int) (h : 1 ≤ duration) :
    (duration : ℚ) * (16999983 / 10 ^ 9) ≤ echoDistance duration ∧
    echoDistance duration ≤ (duration : ℚ) * (17000017 / 10 ^ 9) := by
  unfold echoDistance
  rw [double_0_034]
  have hd : (1 : ℚ) ≤ (duration : ℚ) := by exact_mod_cast h
  have h0 : (0 : ℚ) ≤ (duration : ℚ) * (1224979098644775 / 36028797018963968) := by positivity
  obtain ⟨a1, a2, a3⟩ := toFloat64_bounds _ h0
  have h1 : (0 : ℚ) ≤
      toFloat64 ((duration : ℚ) * (1224979098644775 / 36028797018963968)) / 2 := by linarith
  obtain ⟨b1, b2, b3⟩ := toFloat64_bounds _ h1
  obtain ⟨c1, c2, _⟩ := toFloat32_bounds _ b3
  constructor <;> norm_num at * <;> linarith

/-- The `float` percentage of line 218 is within 0.00002 of the exact one,
and it is not negative. -/
theorem rawFillPercentage_error (r : ℚ) (h0 : 0 ≤ r) (hH : r ≤ BIN_HEIGHT) :
    |rawFillPercentage r - ((BIN_HEIGHT - r) / BIN_HEIGHT) * 100| ≤ 1 / 50000 ∧
    0 ≤ rawFillPercentage r := by
  have hB : BIN_HEIGHT = 42 := by norm_num [BIN_HEIGHT]
  rw [hB] at hH ⊢
  unfold rawFillPercentage
  rw [hB]
  have ha : (0 : ℚ) ≤ 42 - r := by linarith
  obtain ⟨a1, a2, a3⟩ := toFloat32_bounds _ ha
  have hb : (0 : ℚ) ≤ toFloat32 (42 - r) / 42 := by positivity
  obtain ⟨b1, b2, b3⟩ := toFloat32_bounds _ hb
  have hc : (0 : ℚ) ≤ toFloat32 (toFloat32 (42 - r) / 42) * 100 := by positivity
  obtain ⟨c1, c2, c3⟩ := toFloat32_bounds _ hc
  refine ⟨?_, c3⟩
  rw [abs_le]
  constructor <;> norm_num at * <;> linarith

/-- No count of tenths below 98.9 is written as one hundred. -/
theorem tenthsText_ne_full : ∀ n < 989, String.mk ((tenthsText n).take 9) ≠ "100.0" := by
  decide!

/-- The payload of a percentage of at most 98.81 is not one hundred. -/
theorem snprintf1_ne_full (p : ℚ) (h0 : 0 ≤ p) (h1 : p ≤ ((BIN_HEIGHT - 0.5) / BIN_HEIGHT) * 100) :
    snprintf1 p ≠ "100.0" := by
  have hb : ((BIN_HEIGHT - 0.5) / BIN_HEIGHT) * 100 = (4150 / 42 : ℚ) := by
    norm_num [BIN_HEIGHT]
  rw [hb] at h1
  have habs : |p| = p := abs_of_nonneg h0
  have hle : roundHalfEven (|p| * 10) ≤ 988 := by
    apply roundHalfEven_le
    rw [habs]; push_cast; linarith
  have hge : 0 ≤ roundHalfEven (|p| * 10) := by
    apply roundHalfEven_nonneg
    rw [habs]; linarith
  have hlt : (roundHalfEven (|p| * 10)).toNat < 989 := by omega
  have hneg : ¬ p < 0 := not_lt.mpr h0
  unfold snprintf1
  simp only [hneg, if_false, List.nil_append]
  exact tenthsText_ne_full _ hlt


/-! ## Fill estimator: claims C1, C2, C10 -/

/-- C1, counterexample: at the echoes of 231 µs and of 63 µs the reading lies
in `(0, H]`, yet the payload published differs in its last digit from
`clamp(((H - r) / H) * 100, 0, 100)` rounded to one decimal place: the code
publishes "90.7" where the formula gives "90.6", and "97.4" where it gives
"97.5". -/
theorem C1_counterexample :
    (0 < (measureDistance FILL_TRIG_PIN 231 boot).1 ∧
      (measureDistance FILL_TRIG_PIN 231 boot).1 ≤ BIN_HEIGHT ∧
      (emitted boot (measureAndPublishFillLevel 231 boot)).filter Event.isPublish =
        [.publish TOPIC_FILL_LEVEL "90.7" false] ∧
      snprintf1 (clampSpec (((BIN_HEIGHT - (measureDistance FILL_TRIG_PIN 231 boot).1) /
        BIN_HEIGHT) * 100) 0 100) = "90.6") ∧
    (0 < (measureDistance FILL_TRIG_PIN 63 boot).1 ∧
      (measureDistance FILL_TRIG_PIN 63 boot).1 ≤ BIN_HEIGHT ∧
      (emitted boot (measureAndPublishFillLevel 63 boot)).filter Event.isPublish =
        [.publish TOPIC_FILL_LEVEL "97.4" false] ∧
      snprintf1 (clampSpec (((BIN_HEIGHT - (measureDistance FILL_TRIG_PIN 63 boot).1) /
        BIN_HEIGHT) * 100) 0 100) = "97.5") := by
  decide!

/-- C1, amended: for every fill reading `r` with `0 < r ≤ H` (H = 42) the fill
estimator issues exactly one broker publish, on the fill topic, not retained,
whose payload is the one-decimal text of `clamp(p, 0, 100)`, where `p` is
`((H - r) / H) * 100` evaluated in `float` arithmetic as line 218 does, a value
within 0.00002 of the exact one; the same holds for the whole of
`measureAndPublishFillLevel` whenever the ranger returns such a reading;
`r = 10` gives "76.2" and `r = H` gives "0.0". -/
theorem C1_fill_percentage_published (r : ℚ) (s : State) (h0 : 0 < r) (hH : r ≤ BIN_HEIGHT) :
    (emitted s (fillLevelFromHeight r s)).filter Event.isPublish =
        [.publish TOPIC_FILL_LEVEL (snprintf1 (clampSpec (rawFillPercentage r) 0 100)) false] ∧
    |rawFillPercentage r - ((BIN_HEIGHT - r) / BIN_HEIGHT) * 100| ≤ 1 / 50000 ∧
    (∀ duration : Int, (measureDistance FILL_TRIG_PIN duration s).1 = r →
      (emitted s (measureAndPublishFillLevel duration s)).filter Event.isPublish =
        [.publish TOPIC_FILL_LEVEL (snprintf1 (clampSpec (rawFillPercentage r) 0 100)) false]) ∧
    (emitted s (fillLevelFromHeight 10 s)).filter Event.isPublish =
        [.publish TOPIC_FILL_LEVEL "76.2" false] ∧
    (emitted s (fillLevelFromHeight BIN_HEIGHT s)).filter Event.isPublish =
        [.publish TOPIC_FILL_LEVEL "0.0" false] := by
  have key : ∀ (x : ℚ) (t : State), 0 < x → x ≤ BIN_HEIGHT →
      (emitted t (fillLevelFromHeight x t)).filter Event.isPublish =
        [.publish TOPIC_FILL_LEVEL (snprintf1 (clampSpec (rawFillPercentage x) 0 100)) false] := by
    intro x t hx0 hxH
    rw [emitted_of_trace_eq (fillLevelFromHeight_valid_trace x t hx0 hxH), clamp_code_eq_spec]
    simp [Event.isPublish]
  refine ⟨key r s h0 hH, (rawFillPercentage_error r h0.le hH).1, ?_, ?_, ?_⟩
  · intro duration hd
    rcases measureDistance_cases FILL_TRIG_PIN duration s with ⟨hneg, _⟩ | ⟨_, _, _, hs⟩
    · rw [hd] at hneg
      linarith
    · rw [measureAndPublishFillLevel_eq, hd, hs]
      exact key r s h0 hH
  · have h76 : snprintf1 (clampSpec (rawFillPercentage 10) 0 100) = "76.2" := by decide!
    rw [key 10 s (by norm_num) (by norm_num [BIN_HEIGHT]), h76]
  · have h00 : snprintf1 (clampSpec (rawFillPercentage BIN_HEIGHT) 0 100) = "0.0" := by decide!
    rw [key BIN_HEIGHT s (by norm_num [BIN_HEIGHT]) le_rfl, h00]

/-- Witness of C1 at the reading of 10 cm, from the boot state. -/
theorem C1_fill_percentage_published_witness :
    (emitted boot (fillLevelFromHeight 10 boot)).filter Event.isPublish =
      [.publish TOPIC_FILL_LEVEL "76.2" false] :=
  (C1_fill_percentage_published 10 boot (by norm_num) (by norm_num [BIN_HEIGHT])).2.2.2.1

/-- C2: for every fill reading `r` that is the sentinel -1, is at most 0 or
exceeds `H`, the fill estimator performs exactly the default branch: its only
broker publish is "20.0" on the fill topic, not retained, and no percentage is
computed (no calculation line is written); an echo timeout is such a reading;
an invalid reading followed by 42 cm publishes "20.0" and then "0.0". -/
theorem C2_default_on_invalid_reading (r : ℚ) (s : State) (h : r ≤ 0 ∨ BIN_HEIGHT < r) :
    emitted s (fillLevelFromHeight r s) =
        [.print "📏 Current height: ", .print (printFloat r 2), .println " cm",
         .println "⚠️ Invalid fill level measurement, using default value",
         .publish TOPIC_FILL_LEVEL "20.0" false,
         .print "📤 Fill Level: ", .print "20.0", .print "% - MQTT Status: ",
         .println (if s.connected then "Published ✓" else "Failed ✗")] ∧
    (emitted s (fillLevelFromHeight r s)).filter Event.isPublish =
        [.publish TOPIC_FILL_LEVEL "20.0" false] ∧
    (∀ duration : Int, (measureDistance FILL_TRIG_PIN duration s).1 = r →
      (emitted s (measureAndPublishFillLevel duration s)).filter Event.isPublish =
        [.publish TOPIC_FILL_LEVEL "20.0" false]) ∧
    (measureDistance FILL_TRIG_PIN 0 s).1 = -1 ∧
    (emitted s (fillLevelFromHeight 42 (measureAndPublishFillLevel 0 s))).filter Event.isPublish =
        [.publish TOPIC_FILL_LEVEL "20.0" false, .publish TOPIC_FILL_LEVEL "0.0" false] := by
  have hdef := fillLevelFromHeight_default_trace r s h
  refine ⟨emitted_of_trace_eq hdef, ?_, ?_, ?_, ?_⟩
  · rw [emitted_of_trace_eq hdef]
    simp [Event.isPublish]
  · intro duration hd
    rcases measureDistance_cases FILL_TRIG_PIN duration s with ⟨_, log, hlog, hser⟩ | ⟨_, _, _, hs⟩
    · have ht := fillLevelFromHeight_default_trace r (measureDistance FILL_TRIG_PIN duration s).2 h
      rw [hlog, List.append_assoc] at ht
      rw [measureAndPublishFillLevel_eq, hd, emitted_of_trace_eq ht, List.filter_append]
      have hnone : log.filter Event.isPublish = [] := by
        rw [List.filter_eq_nil_iff]
        intro e he
        have := hser e he
        cases e <;> simp_all [Event.isSerial, Event.isPublish]
      rw [hnone]
      simp [Event.isPublish]
    · rw [measureAndPublishFillLevel_eq, hd, hs, emitted_of_trace_eq hdef]
      simp [Event.isPublish]
  · simp [measureDistance]
  · have h0 : (measureDistance FILL_TRIG_PIN 0 s).1 = -1 := by simp [measureDistance]
    have h1 := fillLevelFromHeight_default_trace (-1)
      (measureDistance FILL_TRIG_PIN 0 s).2 (Or.inl (by norm_num))
    have h2 := fillLevelFromHeight_valid_trace 42 (measureAndPublishFillLevel 0 s)
      (by norm_num) (by norm_num [BIN_HEIGHT])
    have h00 : snprintf1 (clampHigh (clampLow (rawFillPercentage 42))) = "0.0" := by decide!
    rw [measureAndPublishFillLevel_eq, h0] at h2 ⊢
    rw [h1] at h2
    have h3 : (measureDistance FILL_TRIG_PIN 0 s).2.trace = s.trace ++
        [.println "⚠️ Warning: Echo timeout - sensor may be disconnected or out of range"] := by
      simp [measureDistance, State.emit]
    rw [h3, List.append_assoc, List.append_assoc] at h2
    rw [emitted_of_trace_eq h2, h00]
    simp [Event.isPublish]

/-- Witness of C2 at the sentinel reading, from the boot state. -/
theorem C2_default_on_invalid_reading_witness :
    (emitted boot (fillLevelFromHeight (-1) boot)).filter Event.isPublish =
      [.publish TOPIC_FILL_LEVEL "20.0" false] :=
  (C2_default_on_invalid_reading (-1) boot (Or.inl (by norm_num))).2.1


/-- C10: for every echo duration, with `r` the `float` reading the ranger
returns for it: when the computing branch is taken (`0 < r ≤ H`), `r` is at
least 0.5 cm, the unclamped `float` percentage of line 218 lies in `[0, 100)`,
neither clamp assignment changes it, and it is at most `((H - 0.5) / H) * 100`,
which is below 100; and whatever the duration, `measureAndPublishFillLevel`
never publishes the payload "100.0". -/
theorem C10_clamp_never_active (duration : Int) (s : State) :
    (0 < (measureDistance FILL_TRIG_PIN duration s).1 ∧
        (measureDistance FILL_TRIG_PIN duration s).1 ≤ BIN_HEIGHT →
      (1 / 2 : ℚ) ≤ (measureDistance FILL_TRIG_PIN duration s).1 ∧
      0 ≤ rawFillPercentage (measureDistance FILL_TRIG_PIN duration s).1 ∧
      rawFillPercentage (measureDistance FILL_TRIG_PIN duration s).1 < 100 ∧
      clampLow (rawFillPercentage (measureDistance FILL_TRIG_PIN duration s).1) =
        rawFillPercentage (measureDistance FILL_TRIG_PIN duration s).1 ∧
      clampHigh (clampLow (rawFillPercentage (measureDistance FILL_TRIG_PIN duration s).1)) =
        rawFillPercentage (measureDistance FILL_TRIG_PIN duration s).1 ∧
      rawFillPercentage (measureDistance FILL_TRIG_PIN duration s).1 ≤
        ((BIN_HEIGHT - 0.5) / BIN_HEIGHT) * 100 ∧
      (emitted s (measureAndPublishFillLevel duration s)).filter Event.isPublish =
        [.publish TOPIC_FILL_LEVEL
          (snprintf1 (rawFillPercentage (measureDistance FILL_TRIG_PIN duration s).1)) false]) ∧
    ((BIN_HEIGHT - 0.5) / BIN_HEIGHT) * 100 < 100 ∧
    (∀ topic retained,
      Event.publish topic "100.0" retained ∉ emitted s (measureAndPublishFillLevel duration s)) := by
  have hbound : ((BIN_HEIGHT - 0.5) / BIN_HEIGHT) * 100 < 100 := by norm_num [BIN_HEIGHT]
  have hfacts : ∀ r : ℚ, echoDistance duration = r → 1 / 2 ≤ r → r ≤ BIN_HEIGHT →
      0 ≤ rawFillPercentage r ∧ rawFillPercentage r < 100 ∧
      clampLow (rawFillPercentage r) = rawFillPercentage r ∧
      clampHigh (clampLow (rawFillPercentage r)) = rawFillPercentage r ∧
      rawFillPercentage r ≤ ((BIN_HEIGHT - 0.5) / BIN_HEIGHT) * 100 := by
    intro r hr h1 h2
    have hdur : 30 ≤ duration := by
      by_contra hc
      push_neg at hc
      rcases le_or_lt duration 0 with hle | hpos
      · have := echoDistance_nonpos duration hle
        rw [hr] at this
        linarith
      · have hb := (echoDistance_bounds duration (by omega)).2
        have hd29 : (duration : ℚ) ≤ 29 := by exact_mod_cast (by omega : duration ≤ 29)
        rw [hr] at hb
        norm_num at hb
        linarith
    have hlow := (echoDistance_bounds duration (by omega)).1
    have hd30 : (30 : ℚ) ≤ (duration : ℚ) := by exact_mod_cast hdur
    rw [hr] at hlow
    obtain ⟨herr, hlo⟩ := rawFillPercentage_error r (by linarith) h2
    rw [abs_le] at herr
    have hhi : rawFillPercentage r ≤ ((BIN_HEIGHT - 0.5) / BIN_HEIGHT) * 100 := by
      have hB : BIN_HEIGHT = 42 := by norm_num [BIN_HEIGHT]
      rw [hB] at herr ⊢
      norm_num at herr hlow ⊢
      linarith [herr.2]
    have hlt : rawFillPercentage r < 100 := lt_of_le_of_lt hhi hbound
    have hcl : clampLow (rawFillPercentage r) = rawFillPercentage r := by
      simp [clampLow, not_lt.mpr hlo]
    have hch : clampHigh (rawFillPercentage r) = rawFillPercentage r := by
      simp [clampHigh, not_lt.mpr (le_of_lt hlt)]
    exact ⟨hlo, hlt, hcl, by rw [hcl, hch], hhi⟩
  rcases measureDistance_cases FILL_TRIG_PIN duration s with
    ⟨hneg, log, hlog, hser⟩ | ⟨hval, hlo, _, hs⟩
  · refine ⟨?_, hbound, ?_⟩
    · rintro ⟨hpos, _⟩
      rw [hneg] at hpos
      norm_num at hpos
    · intro topic retained hmem
      have ht := fillLevelFromHeight_default_trace (-1)
        (measureDistance FILL_TRIG_PIN duration s).2 (Or.inl (by norm_num))
      rw [hlog, List.append_assoc] at ht
      rw [measureAndPublishFillLevel_eq, hneg, emitted_of_trace_eq ht, List.mem_append] at hmem
      rcases hmem with hmem | hmem
      · have := hser _ hmem
        simp [Event.isSerial] at this
      · revert hmem
        simp
  · by_cases hH : (measureDistance FILL_TRIG_PIN duration s).1 ≤ BIN_HEIGHT
    · have hr : (1 / 2 : ℚ) ≤ (measureDistance FILL_TRIG_PIN duration s).1 := by
        rw [hval]; exact hlo
      obtain ⟨f1, f2, f3, f4, f5⟩ := hfacts _ hval.symm hr hH
      have ht := fillLevelFromHeight_valid_trace (measureDistance FILL_TRIG_PIN duration s).1 s
        (by linarith) hH
      have hem := emitted_of_trace_eq ht
      refine ⟨fun _ => ⟨hr, f1, f2, f3, f4, f5, ?_⟩, hbound, ?_⟩
      · rw [measureAndPublishFillLevel_eq, hs, hem, f4]
        simp [Event.isPublish]
      · intro topic retained hmem
        rw [measureAndPublishFillLevel_eq, hs, hem, f4] at hmem
        have hne := snprintf1_ne_full _ f1 f5
        simp at hmem
        exact hne hmem.2.1.symm
    · refine ⟨fun h => absurd h.2 hH, hbound, ?_⟩
      intro topic retained hmem
      have ht := fillLevelFromHeight_default_trace (measureDistance FILL_TRIG_PIN duration s).1 s
        (Or.inr (not_le.mp hH))
      rw [measureAndPublishFillLevel_eq, hs, emitted_of_trace_eq ht] at hmem
      revert hmem
      simp

/-- Witness of C10 at an echo of 1000 µs (17 cm), from the boot state. -/
theorem C10_clamp_never_active_witness :
    rawFillPercentage (measureDistance FILL_TRIG_PIN 1000 boot).1 < 100 :=
  ((C10_clamp_never_active 1000 boot).1 ⟨by decide!, by decide!⟩).2.2.1


/-! ## Clock: claim C9 -/

/-- C9: for every last-fired stamp `last` and every true elapsed time
`e < 2^32` ms, with `now = (last + e) mod 2^32`, the interval test of `loop()`
(unsigned 32-bit `now - last >= period`) holds exactly when `e >= period`, for
the proximity period 200 and for the fill period 10000, wrapped or not. -/
theorem C9_interval_wrap (last e : Nat) (he : e < U32) :
    (intervalElapsed ((last + e) % U32) last proximityCheckInterval = true ↔ 200 ≤ e) ∧
    (intervalElapsed ((last + e) % U32) last fillPublishInterval = true ↔ 10000 ≤ e) := by
  unfold intervalElapsed toU32 subU32 proximityCheckInterval fillPublishInterval U32 at *
  simp only [decide_eq_true_eq]
  constructor <;> omega

/-- Witness of C9 across the wrap: the stamp is 100 ms before the counter
overflows and 300 ms elapse, so `now = 200` is numerically below `last`. -/
theorem C9_interval_wrap_witness :
    (4294967196 + 300) % U32 = 200 ∧
    intervalElapsed 200 4294967196 proximityCheckInterval = true ∧
    intervalElapsed 200 4294967196 fillPublishInterval = false := by
  have h := C9_interval_wrap 4294967196 300 (by decide)
  have hnow : (4294967196 + 300) % U32 = 200 := by decide
  rw [hnow] at h
  refine ⟨hnow, h.1.mpr (by decide), ?_⟩
  have h2 := h.2
  cases hc : intervalElapsed 200 4294967196 fillPublishInterval
  · rfl
  · rw [hc] at h2
    exact absurd (h2.mp rfl) (by decide)

/-! ## Lid controller: claims C3, C4 -/

/-- The proximity ranger writes nothing: the state is untouched and the value
does not depend on it. -/
theorem measureDistance_prox (duration : Int) (s : State) :
    measureDistance PROX_TRIG_PIN duration s =
      ((measureDistance PROX_TRIG_PIN duration boot).1, s) := by
  have hp : PROX_TRIG_PIN ≠ FILL_TRIG_PIN := by decide
  unfold measureDistance
  simp only [hp, if_false]
  split_ifs <;> rfl

/-- The text of a float with two decimals is never a lid command. -/
theorem printFloat_ne_command (x : ℚ) : printFloat x 2 ≠ "O:1" ∧ printFloat x 2 ≠ "O:0" := by
  have hpoint : printFloat x 2 = "ovf" ∨ '.' ∈ (printFloat x 2).data := by
    unfold printFloat
    by_cases h1 : x > 4294967040
    · left; simp [h1]
    · by_cases h2 : x < -4294967040
      · left; simp [h1, h2]
      · right; simp [h1, h2]
  rcases hpoint with h | h
  · rw [h]; decide
  · constructor <;> intro hc <;> rw [hc] at h <;> revert h <;> decide

/-- The lid controller with a closed lid and a distance below the threshold. -/
theorem lidControl_open (avg : ℚ) (s : State) (h : avg < LID_PROXIMITY_THRESHOLD)
    (hs : s.isLidOpen = false) :
    lidControl avg s =
      { s with
        isLidOpen := true
        trace := s.trace ++
          [.print "D:", .println (printFloat avg 2), .println "O:1", .led true,
           .publish TOPIC_LID_STATE "OPEN" false,
           .print "📤 Lid State: ", .print "OPEN", .print " - MQTT Status: ",
           .println (if s.connected then "Published ✓" else "Failed ✗")] } := by
  simp [lidControl, h, hs, publishLidState, mqttPublish, State.emit]

/-- The lid controller with an open lid and a distance at or above the
threshold. -/
theorem lidControl_close (avg : ℚ) (s : State) (h : LID_PROXIMITY_THRESHOLD ≤ avg)
    (hs : s.isLidOpen = true) :
    lidControl avg s =
      { s with
        isLidOpen := false
        trace := s.trace ++
          [.print "D:", .println (printFloat avg 2), .println "O:0", .led false,
           .publish TOPIC_LID_STATE "CLOSED" false,
           .print "📤 Lid State: ", .print "CLOSED", .print " - MQTT Status: ",
           .println (if s.connected then "Published ✓" else "Failed ✗")] } := by
  simp [lidControl, h, hs, publishLidState, mqttPublish, State.emit, not_lt.mpr h]

/-- The lid controller in the two remaining cases. -/
theorem lidControl_steady (avg : ℚ) (s : State)
    (h : (avg < LID_PROXIMITY_THRESHOLD ∧ s.isLidOpen = true) ∨
      (LID_PROXIMITY_THRESHOLD ≤ avg ∧ s.isLidOpen = false)) :
    lidControl avg s =
      { s with trace := s.trace ++ [.print "D:", .println (printFloat avg 2)] } := by
  rcases h with ⟨h, hs⟩ | ⟨h, hs⟩
  · simp [lidControl, h, hs, State.emit, not_le.mpr h]
  · simp [lidControl, h, hs, State.emit, not_lt.mpr h]

/-- The sampler leaves the state alone. -/
theorem sampleProximity_state (echoes : List Int) (i : Nat) (acc : ℚ) (s : State)
    (sum : ℚ) (t : State) (h : sampleProximity echoes i acc s = some (sum, t)) : t = s := by
  induction echoes generalizing i acc with
  | nil =>
    unfold sampleProximity at h
    split_ifs at h
    simp at h
    exact h.2.symm
  | cons d ds ih =>
    unfold sampleProximity at h
    rw [measureDistance_prox] at h
    simp only at h
    split_ifs at h
    · exact ih _ _ h
    · exact ih _ _ h
    · simp at h
      exact h.2.symm

/-- The sampler comes back once three valid readings are available. -/
theorem sampleProximity_returns (echoes : List Int) (i : Nat) (acc : ℚ) (s : State)
    (h : 3 ≤ i + validReadings echoes) : ∃ sum, sampleProximity echoes i acc s = some (sum, s) := by
  induction echoes generalizing i acc with
  | nil =>
    have hi : ¬ i < 3 := by
      simp [validReadings] at h
      omega
    exact ⟨acc, by simp [sampleProximity, hi]⟩
  | cons d ds ih =>
    unfold sampleProximity
    rw [measureDistance_prox]
    simp only
    by_cases hi : i < 3
    · by_cases hv : 0 < (measureDistance PROX_TRIG_PIN d boot).1
      · simp only [hi, if_true, gt_iff_lt, hv]
        apply ih
        simp [validReadings, hv] at h ⊢
        omega
      · simp only [hi, if_true, gt_iff_lt, hv, if_false]
        apply ih
        simp [validReadings, hv] at h ⊢
        omega
    · exact ⟨acc, by simp [hi]⟩

theorem lidControl_edgeTriggered (avg : ℚ) (s : State) : EdgeTriggered avg s (lidControl avg s) := by
  obtain ⟨hn1, hn0⟩ := printFloat_ne_command avg
  unfold EdgeTriggered commandWritten
  by_cases hlt : avg < LID_PROXIMITY_THRESHOLD
  · cases hs : s.isLidOpen
    · have htr : (lidControl avg s).trace = s.trace ++ _ :=
        congrArg State.trace (lidControl_open avg s hlt hs)
      have hst : (lidControl avg s).isLidOpen = true :=
        congrArg State.isLidOpen (lidControl_open avg s hlt hs)
      rw [emitted_of_trace_eq htr, hst]
      simp
    · have htr : (lidControl avg s).trace = s.trace ++ _ :=
        congrArg State.trace (lidControl_steady avg s (Or.inl ⟨hlt, hs⟩))
      have hst : (lidControl avg s).isLidOpen = s.isLidOpen := by
        rw [lidControl_steady avg s (Or.inl ⟨hlt, hs⟩)]
      rw [emitted_of_trace_eq htr, hst, hs]
      simp [Ne.symm hn1, Ne.symm hn0]
  · have hge : LID_PROXIMITY_THRESHOLD ≤ avg := not_lt.mp hlt
    cases hs : s.isLidOpen
    · have htr : (lidControl avg s).trace = s.trace ++ _ :=
        congrArg State.trace (lidControl_steady avg s (Or.inr ⟨hge, hs⟩))
      have hst : (lidControl avg s).isLidOpen = s.isLidOpen := by
        rw [lidControl_steady avg s (Or.inr ⟨hge, hs⟩)]
      rw [emitted_of_trace_eq htr, hst, hs]
      simp [Ne.symm hn1, Ne.symm hn0]
    · have htr : (lidControl avg s).trace = s.trace ++ _ :=
        congrArg State.trace (lidControl_close avg s hge hs)
      have hst : (lidControl avg s).isLidOpen = false :=
        congrArg State.isLidOpen (lidControl_close avg s hge hs)
      rw [emitted_of_trace_eq htr, hst]
      simp

/-- With three valid readings among the echoes the invocation comes back and
is the lid controller applied to their average. -/
theorem checkProximityAndControlLid_returns (echoes : List Int) (s : State)
    (h : 3 ≤ validReadings echoes) :
    ∃ sum, sampleProximity echoes 0 0 s = some (sum, s) ∧
      checkProximityAndControlLid echoes s =
        .returned (lidControl (toFloat32 (sum / 3)) s) := by
  obtain ⟨sum, hsum⟩ := sampleProximity_returns echoes 0 0 s (by omega)
  exact ⟨sum, hsum, by simp [checkProximityAndControlLid, hsum]⟩

/-- C3: for every prior state (lid CLOSED or OPEN) and every averaged distance
`avg`, the lid controller writes a lid command (`O:1` or `O:0`) to the serial
link if and only if the lid state afterwards differs from the one before, and
when it does not differ the only actions are the two writes of the `D:` line
(no other serial output, no broker publish); an invocation of
`checkProximityAndControlLid` that sees three valid readings comes back and
behaves so on their `float` average. -/
theorem C3_lid_command_iff_transition (avg : ℚ) (s : State) (echoes : List Int)
    (h : 3 ≤ validReadings echoes) :
    EdgeTriggered avg s (lidControl avg s) ∧
    ∃ sum t, sampleProximity echoes 0 0 s = some (sum, s) ∧
      checkProximityAndControlLid echoes s = .returned t ∧
      t = lidControl (toFloat32 (sum / 3)) s ∧ EdgeTriggered (toFloat32 (sum / 3)) s t := by
  refine ⟨lidControl_edgeTriggered avg s, ?_⟩
  obtain ⟨sum, hsamp, hsum⟩ := checkProximityAndControlLid_returns echoes s h
  exact ⟨sum, _, hsamp, hsum, rfl, lidControl_edgeTriggered _ s⟩

/-- Witness of C3: an open lid, an average of 40 cm and three valid echoes; the
state stays OPEN and only the `D:` line is written. -/
theorem C3_lid_command_iff_transition_witness :
    emitted { boot with isLidOpen := true } (lidControl 40 { boot with isLidOpen := true }) =
      [.print "D:", .println "40.00"] := by
  have h := (C3_lid_command_iff_transition 40 { boot with isLidOpen := true }
    [2353, 2353, 2353] (by decide!)).1.2 (by decide!)
  have h40 : printFloat 40 2 = "40.00" := by decide!
  rw [h, h40]

/-- What the decision of lines 262-278 would do with an average of exactly
50 cm: a CLOSED lid stays CLOSED, an OPEN lid is closed (line 271 tests `>=`).
No invocation reaches this case, see `average_ne_threshold`. -/
theorem lidControl_at_threshold (s : State) :
    lidControl LID_PROXIMITY_THRESHOLD { s with isLidOpen := false } =
      { s with
        isLidOpen := false
        trace := s.trace ++ [.print "D:", .println "50.00"] } ∧
    lidControl LID_PROXIMITY_THRESHOLD { s with isLidOpen := true } =
      { s with
        isLidOpen := false
        trace := s.trace ++
          [.print "D:", .println "50.00", .println "O:0", .led false,
           .publish TOPIC_LID_STATE "CLOSED" false,
           .print "📤 Lid State: ", .print "CLOSED", .print " - MQTT Status: ",
           .println (if s.connected then "Published ✓" else "Failed ✗")] } := by
  have h50 : printFloat LID_PROXIMITY_THRESHOLD 2 = "50.00" := by decide!
  constructor
  · rw [lidControl_steady _ _ (Or.inr ⟨le_rfl, rfl⟩), h50]
  · rw [lidControl_close _ _ le_rfl rfl, h50]

theorem seedDefaults_eq (s : State) :
    seedDefaults s = { s with firstReadingSent := true, trace := s.trace ++ seedEvents s } := by
  have hd : snprintf1 DEFAULT_FILL_LEVEL = "20.0" := by decide!
  cases hl : s.firstReadingSent
  · simp [seedDefaults, seedEvents, hl, publishFillLevel, publishLidState, mqttPublish,
      State.emit, hd]
  · cases s
    simp_all [seedDefaults, seedEvents]

/-- One loop test and body with a failing connect. -/
theorem reconnectLoop_fail (connectRc : Nat → Int) (fuel retry attempt : Nat) (s : State)
    (hc : s.connected = false) (hr : retry < 3) (hrc : connectRc attempt ≠ 0) :
    reconnectLoop connectRc (fuel + 1) retry attempt s =
      reconnectLoop connectRc fuel (retry + 1) (attempt + 1)
        (afterFailedAttempt (connectRc attempt) s) := by
  rw [reconnectLoop]
  simp [hc, hr, hrc, afterFailedAttempt, failedEvents, State.emit]

/-- One loop test and body with a successful connect, and the loop test that
follows it. -/
theorem reconnectLoop_ok (connectRc : Nat → Int) (fuel retry attempt : Nat) (s : State)
    (hc : s.connected = false) (hr : retry < 3) (hrc : connectRc attempt = 0) :
    reconnectLoop connectRc (fuel + 2) retry attempt s = .returned (afterConnect s) := by
  rw [reconnectLoop]
  simp only [hc, hr, hrc, and_self, if_true, decide_True]
  rw [seedDefaults_eq, reconnectLoop]
  simp [afterConnect, connectedEvents, State.emit, seedEvents]

/-- The loop test with the retry budget used up. -/
theorem reconnectLoop_exhausted (connectRc : Nat → Int) (fuel attempt : Nat) (s : State) :
    reconnectLoop connectRc (fuel + 1) 3 attempt s = .returned s := by
  rw [reconnectLoop]
  simp

/-- The four ways the loop of `reconnectMQTT` can go when it starts without a
session, for any fuel of at least four loop tests. -/
theorem reconnectLoop_cases (connectRc : Nat → Int) (n : Nat) (s : State)
    (hc : s.connected = false) :
    (connectRc 0 = 0 ∧ reconnectLoop connectRc (n + 4) 0 0 s = .returned (afterConnect s)) ∨
    (connectRc 0 ≠ 0 ∧ connectRc 1 = 0 ∧
      reconnectLoop connectRc (n + 4) 0 0 s =
        .returned (afterConnect (afterFailedAttempt (connectRc 0) s))) ∨
    (connectRc 0 ≠ 0 ∧ connectRc 1 ≠ 0 ∧ connectRc 2 = 0 ∧
      reconnectLoop connectRc (n + 4) 0 0 s =
        .returned (afterConnect (afterFailedAttempt (connectRc 1)
          (afterFailedAttempt (connectRc 0) s)))) ∨
    (connectRc 0 ≠ 0 ∧ connectRc 1 ≠ 0 ∧ connectRc 2 ≠ 0 ∧
      reconnectLoop connectRc (n + 4) 0 0 s =
        .returned (afterFailedAttempt (connectRc 2) (afterFailedAttempt (connectRc 1)
          (afterFailedAttempt (connectRc 0) s)))) := by
  by_cases h0 : connectRc 0 = 0
  · left
    exact ⟨h0, reconnectLoop_ok connectRc (n + 2) 0 0 s hc (by norm_num) h0⟩
  · right
    rw [reconnectLoop_fail connectRc (n + 3) 0 0 s hc (by norm_num) h0]
    by_cases h1 : connectRc 1 = 0
    · left
      exact ⟨h0, h1, reconnectLoop_ok connectRc (n + 1) 1 1 _ rfl (by norm_num) h1⟩
    · right
      rw [reconnectLoop_fail connectRc (n + 2) 1 1 _ rfl (by norm_num) h1]
      by_cases h2 : connectRc 2 = 0
      · left
        exact ⟨h0, h1, h2, reconnectLoop_ok connectRc n 2 2 _ rfl (by norm_num) h2⟩
      · right
        rw [reconnectLoop_fail connectRc (n + 1) 2 2 _ rfl (by norm_num) h2]
        exact ⟨h0, h1, h2, reconnectLoop_exhausted connectRc n 3 _⟩

/-- The four ways an invocation of `reconnectMQTT` can go when it starts
without a session. -/
theorem reconnectMQTT_cases (connectRc : Nat → Int) (s : State) (hc : s.connected = false) :
    (connectRc 0 = 0 ∧ reconnectMQTT connectRc s = .returned (afterConnect s)) ∨
    (connectRc 0 ≠ 0 ∧ connectRc 1 = 0 ∧
      reconnectMQTT connectRc s =
        .returned (afterConnect (afterFailedAttempt (connectRc 0) s))) ∨
    (connectRc 0 ≠ 0 ∧ connectRc 1 ≠ 0 ∧ connectRc 2 = 0 ∧
      reconnectMQTT connectRc s =
        .returned (afterConnect (afterFailedAttempt (connectRc 1)
          (afterFailedAttempt (connectRc 0) s)))) ∨
    (connectRc 0 ≠ 0 ∧ connectRc 1 ≠ 0 ∧ connectRc 2 ≠ 0 ∧
      reconnectMQTT connectRc s =
        .returned (afterFailedAttempt (connectRc 2) (afterFailedAttempt (connectRc 1)
          (afterFailedAttempt (connectRc 0) s)))) :=
  reconnectLoop_cases connectRc 0 s hc

/-- More fuel than `reconnectMQTT` supplies changes nothing. -/
theorem reconnectLoop_fuel (connectRc : Nat → Int) (n : Nat) (s : State)
    (hc : s.connected = false) :
    reconnectLoop connectRc (n + 4) 0 0 s = reconnectMQTT connectRc s := by
  rcases reconnectLoop_cases connectRc n s hc with ⟨h0, h⟩ | ⟨h0, h1, h⟩ | ⟨h0, h1, h2, h⟩ |
    ⟨h0, h1, h2, h⟩ <;>
  rcases reconnectMQTT_cases connectRc s hc with ⟨g0, g⟩ | ⟨g0, g1, g⟩ | ⟨g0, g1, g2, g⟩ |
    ⟨g0, g1, g2, g⟩ <;>
  first
    | exact h.trans g.symm
    | exact absurd g0 h0
    | exact absurd h0 g0
    | exact absurd g1 h1
    | exact absurd h1 g1
    | exact absurd g2 h2
    | exact absurd h2 g2

/-- With a session already up nothing is attempted. -/
theorem reconnectMQTT_connected (connectRc : Nat → Int) (s : State) (hc : s.connected = true) :
    reconnectMQTT connectRc s = .returned s := by
  unfold reconnectMQTT
  rw [reconnectLoop]
  simp [hc]

theorem seedEvents_no_connect (s : State) : (seedEvents s).filter Event.isConnect = [] := by
  unfold seedEvents
  split_ifs <;> simp [Event.isConnect]

theorem connects_afterConnect (s : State) :
    (emitted s (afterConnect s)).filter Event.isConnect = [.connect 0] := by
  have h : (afterConnect s).trace = s.trace ++ connectedEvents s := rfl
  rw [emitted_of_trace_eq h, connectedEvents, List.filter_append, seedEvents_no_connect]
  simp [Event.isConnect]

/-- C8: for every sequence of connect outcomes, an invocation of
`reconnectMQTT` that starts without a session comes back, whatever fuel of at
least four loop tests the model is given, after at most 3 connect attempts:
either attempt `k < 3` is the first to succeed, exactly `k + 1` attempts were
made and the client is connected, or the first three attempts all fail, exactly
3 attempts were made and the client is left disconnected. -/
theorem C8_reconnect_bounded (connectRc : Nat → Int) (s : State) (hc : s.connected = false) :
    ∃ t, reconnectMQTT connectRc s = .returned t ∧
      (∀ n, reconnectLoop connectRc (n + 4) 0 0 s = .returned t) ∧
      ((emitted s t).filter Event.isConnect).length ≤ 3 ∧
      ((∃ k, k < 3 ∧ (∀ j, j < k → connectRc j ≠ 0) ∧ connectRc k = 0 ∧
          (emitted s t).filter Event.isConnect =
            (List.range (k + 1)).map (fun j => Event.connect (connectRc j)) ∧
          t.connected = true) ∨
       ((∀ j, j < 3 → connectRc j ≠ 0) ∧
          (emitted s t).filter Event.isConnect =
            (List.range 3).map (fun j => Event.connect (connectRc j)) ∧
          t.connected = false)) := by
  have hfuel : ∀ t, reconnectMQTT connectRc s = .returned t →
      ∀ n, reconnectLoop connectRc (n + 4) 0 0 s = .returned t := by
    intro t ht n
    rw [reconnectLoop_fuel connectRc n s hc, ht]
  rcases reconnectMQTT_cases connectRc s hc with ⟨h0, h⟩ | ⟨h0, h1, h⟩ | ⟨h0, h1, h2, h⟩ |
    ⟨h0, h1, h2, h⟩
  · refine ⟨_, h, hfuel _ h, ?_, Or.inl ⟨0, by norm_num, ?_, h0, ?_, rfl⟩⟩
    · rw [connects_afterConnect]; simp
    · intro j hj; omega
    · rw [connects_afterConnect]; simp [List.range_succ, h0]
  · have hf : (emitted s (afterConnect (afterFailedAttempt (connectRc 0) s))).filter
        Event.isConnect = [.connect (connectRc 0), .connect 0] := by
      simp [emitted, afterConnect, afterFailedAttempt, connectedEvents, failedEvents,
        List.filter_append, seedEvents_no_connect, Event.isConnect]
    refine ⟨_, h, hfuel _ h, ?_, Or.inl ⟨1, by norm_num, ?_, h1, ?_, rfl⟩⟩
    · rw [hf]; simp
    · intro j hj
      have : j = 0 := by omega
      rw [this]; exact h0
    · rw [hf]; simp [List.range_succ, h1]
  · have hf : (emitted s (afterConnect (afterFailedAttempt (connectRc 1)
        (afterFailedAttempt (connectRc 0) s)))).filter Event.isConnect =
        [.connect (connectRc 0), .connect (connectRc 1), .connect 0] := by
      simp [emitted, afterConnect, afterFailedAttempt, connectedEvents, failedEvents,
        List.filter_append, seedEvents_no_connect, Event.isConnect]
    refine ⟨_, h, hfuel _ h, ?_, Or.inl ⟨2, by norm_num, ?_, h2, ?_, rfl⟩⟩
    · rw [hf]; simp
    · intro j hj
      rcases (by omega : j = 0 ∨ j = 1) with hj0 | hj1
      · rw [hj0]; exact h0
      · rw [hj1]; exact h1
    · rw [hf]; simp [List.range_succ, h2]
  · have hf : (emitted s (afterFailedAttempt (connectRc 2) (afterFailedAttempt (connectRc 1)
        (afterFailedAttempt (connectRc 0) s)))).filter Event.isConnect =
        [.connect (connectRc 0), .connect (connectRc 1), .connect (connectRc 2)] := by
      simp [emitted, afterFailedAttempt, failedEvents, Event.isConnect]
    refine ⟨_, h, hfuel _ h, ?_, Or.inr ⟨?_, ?_, rfl⟩⟩
    · rw [hf]; simp
    · intro j hj
      rcases (by omega : j = 0 ∨ j = 1 ∨ j = 2) with hj0 | hj1 | hj2
      · rw [hj0]; exact h0
      · rw [hj1]; exact h1
      · rw [hj2]; exact h2
    · rw [hf]; simp [List.range_succ]

/-- Witness of C8: from boot, with every connect failing (`rc = -2`), the
invocation comes back. -/
theorem C8_reconnect_bounded_witness :
    ∃ t, reconnectMQTT (fun _ => -2) boot = .returned t ∧
      (∀ n, reconnectLoop (fun _ => -2) (n + 4) 0 0 boot = .returned t) ∧
      ((emitted boot t).filter Event.isConnect).length ≤ 3 ∧
      ((∃ k, k < 3 ∧ (∀ j, j < k → (fun _ : Nat => (-2 : Int)) j ≠ 0) ∧
          (fun _ : Nat => (-2 : Int)) k = 0 ∧
          (emitted boot t).filter Event.isConnect =
            (List.range (k + 1)).map (fun j => Event.connect ((fun _ : Nat => (-2 : Int)) j)) ∧
          t.connected = true) ∨
       ((∀ j, j < 3 → (fun _ : Nat => (-2 : Int)) j ≠ 0) ∧
          (emitted boot t).filter Event.isConnect =
            (List.range 3).map (fun j => Event.connect ((fun _ : Nat => (-2 : Int)) j)) ∧
          t.connected = false)) :=
  C8_reconnect_bounded (fun _ => -2) boot rfl

/-! ## Scheduler: shape of one iteration -/

theorem loop_eq (inp : TickInput) (s : State) :
    loop inp s =
      (if s.connected = false then reconnectMQTT inp.connectRc s else .returned s).andThen
        (loopTail inp) := rfl

theorem QuietStep.refl (s : State) : QuietStep s s := ⟨[], by simp, by simp, rfl⟩

theorem QuietStep.trans {s t u : State} (h1 : QuietStep s t) (h2 : QuietStep t u) :
    QuietStep s u := by
  obtain ⟨a, ha, hqa, hla⟩ := h1
  obtain ⟨b, hb, hqb, hlb⟩ := h2
  refine ⟨a ++ b, ?_, ?_, ?_⟩
  · rw [hb, ha, List.append_assoc]
  · rw [List.all_append, hqa, hqb]; rfl
  · rw [hlb, hla]

theorem lidControl_quiet (avg : ℚ) (s : State) : QuietStep s (lidControl avg s) := by
  by_cases hlt : avg < LID_PROXIMITY_THRESHOLD
  · cases hs : s.isLidOpen
    · rw [lidControl_open avg s hlt hs]
      exact ⟨_, rfl, by simp [Event.isQuiet], rfl⟩
    · rw [lidControl_steady avg s (Or.inl ⟨hlt, hs⟩)]
      exact ⟨_, rfl, by simp [Event.isQuiet], rfl⟩
  · have hge : LID_PROXIMITY_THRESHOLD ≤ avg := not_lt.mp hlt
    cases hs : s.isLidOpen
    · rw [lidControl_steady avg s (Or.inr ⟨hge, hs⟩)]
      exact ⟨_, rfl, by simp [Event.isQuiet], rfl⟩
    · rw [lidControl_close avg s hge hs]
      exact ⟨_, rfl, by simp [Event.isQuiet], rfl⟩

theorem checkProximityAndControlLid_quiet (echoes : List Int) (s : State) :
    QuietStep s (checkProximityAndControlLid echoes s).state := by
  unfold checkProximityAndControlLid
  cases h : sampleProximity echoes 0 0 s with
  | none => exact QuietStep.refl s
  | some r =>
    obtain ⟨sum, t⟩ := r
    have ht : t = s := sampleProximity_state echoes 0 0 s sum t h
    subst ht
    exact lidControl_quiet _ _

theorem fillLevelFromHeight_quiet (r : ℚ) (s : State) : QuietStep s (fillLevelFromHeight r s) := by
  by_cases h : r ≤ 0 ∨ BIN_HEIGHT < r
  · rw [fillLevelFromHeight_default r s h]
    exact ⟨_, rfl, by simp [Event.isQuiet], rfl⟩
  · push_neg at h
    rw [fillLevelFromHeight_valid r s h.1 h.2]
    exact ⟨_, rfl, by simp [Event.isQuiet], rfl⟩

theorem measureDistance_quiet (trigPin duration : Int) (s : State) :
    QuietStep s (measureDistance trigPin duration s).2 := by
  unfold measureDistance
  simp only
  split_ifs <;>
    first
      | exact QuietStep.refl s
      | exact ⟨_, rfl, by simp [Event.isQuiet], rfl⟩

theorem measureAndPublishFillLevel_quiet (duration : Int) (s : State) :
    QuietStep s (measureAndPublishFillLevel duration s) := by
  rw [measureAndPublishFillLevel_eq]
  exact (measureDistance_quiet _ _ s).trans (fillLevelFromHeight_quiet _ _)

/-- After the service call an iteration adds only quiet events. -/
theorem loopTail_shape (inp : TickInput) (s : State) :
    ∃ post, (loopTail inp s).state.trace = s.trace ++ .service :: post ∧
      post.all Event.isQuiet = true ∧
      (loopTail inp s).state.firstReadingSent = s.firstReadingSent := by
  have key : ∀ u : State, QuietStep (mqttLoop inp.linkUp s) u →
      ∃ post, u.trace = s.trace ++ .service :: post ∧ post.all Event.isQuiet = true ∧
        u.firstReadingSent = s.firstReadingSent := by
    rintro u ⟨new, hnew, hq, hl⟩
    refine ⟨new, ?_, hq, ?_⟩
    · rw [hnew]; simp [mqttLoop, State.emit]
    · rw [hl]; rfl
  apply key
  unfold loopTail
  simp only
  have hstamp : ∀ (u : State) (m : Nat),
      QuietStep u { u with lastProximityCheckTime := m } ∧
      QuietStep u { u with lastFillPublishTime := m } :=
    fun u m => ⟨⟨[], by simp, by simp, rfl⟩, ⟨[], by simp, by simp, rfl⟩⟩
  have hfill : ∀ u : State, QuietStep u
      (if intervalElapsed (inp.now % U32) u.lastFillPublishTime fillPublishInterval then
        Outcome.returned (measureAndPublishFillLevel inp.fillEcho
          { u with lastFillPublishTime := inp.now % U32 })
      else Outcome.returned u).state := by
    intro u
    split_ifs
    · exact (hstamp u _).2.trans (measureAndPublishFillLevel_quiet _ _)
    · exact QuietStep.refl u
  split_ifs with hp
  · have hq := checkProximityAndControlLid_quiet inp.proxEchoes
      { mqttLoop inp.linkUp s with lastProximityCheckTime := inp.now % U32 }
    cases hc : checkProximityAndControlLid inp.proxEchoes
      { mqttLoop inp.linkUp s with lastProximityCheckTime := inp.now % U32 } with
    | returned u =>
      rw [hc] at hq
      exact ((hstamp _ _).1.trans hq).trans (hfill u)
    | stuck u =>
      rw [hc] at hq
      exact (hstamp _ _).1.trans hq
  · exact hfill _

/-- Before the service call an iteration makes its connect attempts and, when
one succeeds with the latch unset, publishes the seed pair and sets the latch. -/
theorem reconnectPhase_shape (connectRc : Nat → Int) (s : State) :
    ∃ t pre ok,
      (if s.connected = false then reconnectMQTT connectRc s else .returned s) = .returned t ∧
      t.trace = s.trace ++ pre ∧
      t.firstReadingSent = (s.firstReadingSent || ok) ∧
      pre.any Event.isConnectOk = ok ∧
      pre.all (fun e => !e.isService) = true ∧
      pre.filter Event.isPublish = (if ok && !s.firstReadingSent then seedPair s else []) := by
  cases hc : s.connected
  · simp only [if_true]
    rcases reconnectMQTT_cases connectRc s hc with ⟨h0, h⟩ | ⟨h0, h1, h⟩ | ⟨h0, h1, h2, h⟩ |
      ⟨h0, h1, h2, h⟩
    · refine ⟨_, connectedEvents s, true, h, rfl, ?_, ?_, ?_, ?_⟩ <;>
        cases hl : s.firstReadingSent <;>
        simp [afterConnect, connectedEvents, seedEvents, seedPair, hl, Event.isConnectOk,
          Event.isService, Event.isPublish]
    · refine ⟨_, failedEvents (connectRc 0) ++
        connectedEvents (afterFailedAttempt (connectRc 0) s), true, h, ?_, ?_, ?_, ?_, ?_⟩
      · simp only [afterConnect, afterFailedAttempt, List.append_assoc]
      all_goals
        cases hl : s.firstReadingSent <;>
        simp [afterConnect, afterFailedAttempt, connectedEvents, failedEvents, seedEvents,
          seedPair, hl, Event.isConnectOk, Event.isService, Event.isPublish]
    · refine ⟨_, failedEvents (connectRc 0) ++ (failedEvents (connectRc 1) ++
        connectedEvents (afterFailedAttempt (connectRc 1) (afterFailedAttempt (connectRc 0) s))),
        true, h, ?_, ?_, ?_, ?_, ?_⟩
      · simp only [afterConnect, afterFailedAttempt, List.append_assoc]
      all_goals
        cases hl : s.firstReadingSent <;>
        simp [afterConnect, afterFailedAttempt, connectedEvents, failedEvents, seedEvents,
          seedPair, hl, Event.isConnectOk, Event.isService, Event.isPublish]
    · refine ⟨_, failedEvents (connectRc 0) ++ (failedEvents (connectRc 1) ++
        failedEvents (connectRc 2)), false, h, ?_, ?_, ?_, ?_, ?_⟩
      · simp only [afterFailedAttempt, List.append_assoc]
      all_goals
        simp [afterFailedAttempt, failedEvents, Event.isConnectOk, Event.isService,
          Event.isPublish, h0, h1, h2]
  · exact ⟨s, [], false, by simp, by simp, by simp, by simp, by simp, by simp⟩

/-- Shape of one iteration of `loop()`: connect attempts and possibly the
seed pair, then the service call, then quiet events only. -/
theorem loop_shape (inp : TickInput) (s : State) :
    ∃ pre post ok,
      (loop inp s).state.trace = s.trace ++ (pre ++ .service :: post) ∧
      (loop inp s).state.firstReadingSent = (s.firstReadingSent || ok) ∧
      pre.any Event.isConnectOk = ok ∧
      pre.all (fun e => !e.isService) = true ∧
      pre.filter Event.isPublish = (if ok && !s.firstReadingSent then seedPair s else []) ∧
      post.all Event.isQuiet = true := by
  obtain ⟨t, pre, ok, ht, htr, hl, hok, hsv, hpub⟩ := reconnectPhase_shape inp.connectRc s
  obtain ⟨post, hpost, hq, hl2⟩ := loopTail_shape inp t
  refine ⟨pre, post, ok, ?_, ?_, hok, hsv, hpub, hq⟩
  · rw [loop_eq, ht]
    simp only [Outcome.andThen]
    rw [hpost, htr, List.append_assoc]
  · rw [loop_eq, ht]
    simp only [Outcome.andThen]
    rw [hl2, hl]

/-! ## Reading the shape of an iteration -/

theorem all_quiet_filter_nil (p : Event → Bool) (hp : ∀ e, e.isQuiet = true → p e = false)
    (l : List Event) (h : l.all Event.isQuiet = true) : l.filter p = [] := by
  rw [List.filter_eq_nil_iff]
  intro e he
  rw [List.all_eq_true] at h
  simp [hp e (h e he)]

theorem quiet_not_retained (e : Event) (h : e.isQuiet = true) : e.isRetained = false := by
  cases e <;> simp_all [Event.isQuiet, Event.isRetained]

theorem quiet_not_retainedOn (topic : String) (e : Event) (h : e.isQuiet = true) :
    e.isRetainedOn topic = false := by
  cases e <;> simp_all [Event.isQuiet, Event.isRetainedOn]

theorem quiet_not_connectOk (e : Event) (h : e.isQuiet = true) : e.isConnectOk = false := by
  cases e <;> simp_all [Event.isQuiet, Event.isConnectOk]

theorem quiet_not_service (e : Event) (h : e.isQuiet = true) : e.isService = false := by
  cases e <;> simp_all [Event.isQuiet, Event.isService]

theorem filter_through_publishes (p : Event → Bool) (hp : ∀ e, p e = true → e.isPublish = true)
    (l : List Event) : l.filter p = (l.filter Event.isPublish).filter p := by
  rw [List.filter_filter]
  congr 1
  funext e
  cases hpe : p e
  · simp
  · simp [hp e hpe]

theorem retained_is_publish (e : Event) (h : e.isRetained = true) : e.isPublish = true := by
  cases e <;> simp_all [Event.isRetained, Event.isPublish]

theorem retainedOn_is_publish (topic : String) (e : Event) (h : e.isRetainedOn topic = true) :
    e.isPublish = true := by
  cases e <;> simp_all [Event.isRetainedOn, Event.isPublish]

theorem takeWhile_before (p : Event → Bool) (pre post : List Event) (x : Event)
    (h : pre.all p = true) (hx : p x = false) : (pre ++ x :: post).takeWhile p = pre := by
  induction pre with
  | nil => simp [List.takeWhile, hx]
  | cons a l ih =>
    simp only [List.all_cons, Bool.and_eq_true] at h
    simp [List.takeWhile, h.1, ih h.2]

theorem dropWhile_before (p : Event → Bool) (pre post : List Event) (x : Event)
    (h : pre.all p = true) (hx : p x = false) : (pre ++ x :: post).dropWhile p = x :: post := by
  induction pre with
  | nil => simp [List.dropWhile, hx]
  | cons a l ih =>
    simp only [List.all_cons, Bool.and_eq_true] at h
    simp [List.dropWhile, h.1, ih h.2]

/-- The events a single iteration adds, read off `loop_shape`. -/
theorem loop_emitted (inp : TickInput) (s : State) :
    ∃ pre post ok,
      emitted s (loop inp s).state = pre ++ .service :: post ∧
      (loop inp s).state.firstReadingSent = (s.firstReadingSent || ok) ∧
      pre.any Event.isConnectOk = ok ∧
      pre.all (fun e => !e.isService) = true ∧
      pre.filter Event.isPublish = (if ok && !s.firstReadingSent then seedPair s else []) ∧
      post.all Event.isQuiet = true := by
  obtain ⟨pre, post, ok, htr, hrest⟩ := loop_shape inp s
  exact ⟨pre, post, ok, emitted_of_trace_eq htr, hrest⟩

/-! ## Scheduler: claims C5, C6, C7 -/

/-- C7, counterexample: in the iteration from boot in which the session is
established at the first attempt, the retained seed pair is published before
the service call of that iteration. -/
theorem C7_counterexample :
    servicePrecedesPublishes (emitted boot (loop firstTick boot).state) = false ∧
    (emitted boot (loop firstTick boot).state).filter
        (fun e => e.isPublish || e.isService) =
      [.publish TOPIC_FILL_LEVEL "20.0" true, .publish TOPIC_LID_STATE "CLOSED" true,
       .service] := by
  decide!

/-- C7, amended: every iteration of `loop()` makes exactly one service call;
every publish without the retained flag (all publishes of the lid controller
and of the fill estimator) comes after it; the publishes that come before it
are the retained seed pair of `reconnectMQTT`, or none; and once the
first-seed latch is set the service call precedes every publish of the
iteration, also when the iteration re-establishes the session. -/
theorem C7_service_precedes_unretained (inp : TickInput) (s : State) :
    ((emitted s (loop inp s).state).filter Event.isService).length = 1 ∧
    servicePrecedesUnretained (emitted s (loop inp s).state) = true ∧
    (((emitted s (loop inp s).state).takeWhile fun e => !e.isService).filter Event.isPublish = [] ∨
      ((emitted s (loop inp s).state).takeWhile fun e => !e.isService).filter Event.isPublish =
        seedPair s) ∧
    (((emitted s (loop inp s).state).dropWhile fun e => !e.isService).all
      fun e => !e.isRetained) = true ∧
    servicePrecedesPublishes (emitted { s with firstReadingSent := true }
      (loop inp { s with firstReadingSent := true }).state) = true := by
  have hsvc : (fun e : Event => !e.isService) Event.service = false := rfl
  obtain ⟨pre, post, ok, hem, _, _, hsv, hpub, hq⟩ := loop_emitted inp s
  have hpostsvc : post.filter Event.isService = [] :=
    all_quiet_filter_nil _ quiet_not_service post hq
  have hpresvc : pre.filter Event.isService = [] := by
    rw [List.filter_eq_nil_iff]
    intro e he
    rw [List.all_eq_true] at hsv
    simpa using hsv e he
  have hseed : ∀ e ∈ seedPair s, e.isRetained = true := by
    intro e he
    simp [seedPair] at he
    rcases he with rfl | rfl <;> rfl
  have hpre : ∀ e ∈ pre, e.isPublish = true → e.isRetained = true := by
    intro e he hp
    have hmem : e ∈ pre.filter Event.isPublish := List.mem_filter.mpr ⟨he, hp⟩
    rw [hpub] at hmem
    split_ifs at hmem
    · exact hseed e hmem
    · simp at hmem
  refine ⟨?_, ?_, ?_, ?_, ?_⟩
  · rw [hem, List.filter_append, List.filter_cons, hpresvc, hpostsvc]
    rfl
  · unfold servicePrecedesUnretained
    rw [hem, takeWhile_before _ pre post _ hsv hsvc, List.all_eq_true]
    intro e he
    cases hp : e.isPublish
    · rfl
    · simp [hpre e he hp]
  · rw [hem, takeWhile_before _ pre post _ hsv hsvc, hpub]
    split_ifs
    · exact Or.inr rfl
    · exact Or.inl rfl
  · rw [hem, dropWhile_before _ pre post _ hsv hsvc, List.all_cons]
    refine Bool.and_eq_true_iff.mpr ⟨rfl, ?_⟩
    rw [List.all_eq_true]
    intro e he
    rw [List.all_eq_true] at hq
    simp [quiet_not_retained e (hq e he)]
  · obtain ⟨pre2, post2, ok2, hem2, _, _, hsv2, hpub2, _⟩ :=
      loop_emitted inp { s with firstReadingSent := true }
    unfold servicePrecedesPublishes
    rw [hem2, takeWhile_before _ pre2 post2 _ hsv2 hsvc, List.all_eq_true]
    intro e he
    cases hp : e.isPublish
    · rfl
    · have hmem : e ∈ pre2.filter Event.isPublish := List.mem_filter.mpr ⟨he, hp⟩
      rw [hpub2] at hmem
      simp at hmem

theorem boot_oneShot : OneShot boot := by
  simp [OneShot, boot, retainedOn]

theorem seedPair_counts (s : State) :
    ((seedPair s).filter (Event.isRetainedOn TOPIC_FILL_LEVEL)).length = 1 ∧
    ((seedPair s).filter (Event.isRetainedOn TOPIC_LID_STATE)).length = 1 ∧
    ((seedPair s).filter Event.isRetained).length = 2 := by
  have h1 : TOPIC_LID_STATE ≠ TOPIC_FILL_LEVEL := by decide
  have h2 : TOPIC_FILL_LEVEL ≠ TOPIC_LID_STATE := by decide
  simp [seedPair, Event.isRetainedOn, Event.isRetained, h1, h2]

theorem loop_oneShot (inp : TickInput) (s : State) (h : OneShot s) :
    OneShot (loop inp s).state := by
  obtain ⟨pre, post, ok, htr, hl, hok, _, hpub, hq⟩ := loop_shape inp s
  obtain ⟨h1, h2, h3, h4⟩ := h
  obtain ⟨c1, c2, c3⟩ := seedPair_counts s
  have hpostok : post.any Event.isConnectOk = false := by
    rw [List.any_eq_false]
    intro e he
    rw [List.all_eq_true] at hq
    simp [quiet_not_connectOk e (hq e he)]
  have hpostf : ∀ topic, post.filter (Event.isRetainedOn topic) = [] :=
    fun topic => all_quiet_filter_nil _ (quiet_not_retainedOn topic) post hq
  have hpostr : post.filter Event.isRetained = [] :=
    all_quiet_filter_nil _ quiet_not_retained post hq
  have hpref : ∀ topic, pre.filter (Event.isRetainedOn topic) =
      (if ok && !s.firstReadingSent then seedPair s else []).filter (Event.isRetainedOn topic) := by
    intro topic
    rw [filter_through_publishes _ (retainedOn_is_publish topic), hpub]
  have hprer : pre.filter Event.isRetained =
      (if ok && !s.firstReadingSent then seedPair s else []).filter Event.isRetained := by
    rw [filter_through_publishes _ retained_is_publish, hpub]
  unfold OneShot retainedOn at *
  rw [htr, hl]
  simp only [List.any_append, List.any_cons, List.filter_append, List.filter_cons,
    List.length_append, hpostok, hpostf, hpostr, hpref, hprer, hok, ← h1, h2, h3, h4]
  cases hls : s.firstReadingSent <;> cases hoks : ok <;>
    simp [Event.isConnectOk, Event.isRetainedOn, Event.isRetained, c1, c2, c3]

theorem run_cons (inp : TickInput) (rest : List TickInput) (s : State) :
    (run (inp :: rest) s).state =
      match loop inp s with
      | .returned t => (run rest t).state
      | .stuck t => t := by
  rw [run]
  cases loop inp s <;> rfl

theorem run_oneShot (ins : List TickInput) (s : State) (h : OneShot s) :
    OneShot (run ins s).state := by
  induction ins generalizing s with
  | nil => exact h
  | cons inp rest ih =>
    have hstep := loop_oneShot inp s h
    rw [run_cons]
    cases hloop : loop inp s with
    | returned t =>
      rw [hloop] at hstep
      exact ih t hstep
    | stuck t =>
      rw [hloop] at hstep
      exact hstep

/-- Once set, the latch survives an iteration, and the iteration publishes
nothing retained. -/
theorem loop_latched (inp : TickInput) (s : State) (h : s.firstReadingSent = true) :
    (loop inp s).state.firstReadingSent = true ∧
    (emitted s (loop inp s).state).filter Event.isRetained = [] := by
  obtain ⟨pre, post, ok, hem, hl, _, _, hpub, hq⟩ := loop_emitted inp s
  refine ⟨by rw [hl, h]; rfl, ?_⟩
  rw [hem, List.filter_append, List.filter_cons,
    all_quiet_filter_nil _ quiet_not_retained post hq,
    filter_through_publishes _ retained_is_publish pre, hpub, h]
  simp [Event.isRetained]

theorem run_latched (ins : List TickInput) (s : State) (h : s.firstReadingSent = true) :
    (run ins s).state.firstReadingSent = true := by
  induction ins generalizing s with
  | nil => exact h
  | cons inp rest ih =>
    have hstep := (loop_latched inp s h).1
    rw [run_cons]
    cases hloop : loop inp s with
    | returned t =>
      rw [hloop] at hstep
      exact ih t hstep
    | stuck t =>
      rw [hloop] at hstep
      exact hstep

theorem quietStep_no_retained {s t : State} (h : QuietStep s t) :
    (emitted s t).filter Event.isRetained = [] := by
  obtain ⟨new, hnew, hq, _⟩ := h
  rw [emitted_of_trace_eq hnew]
  exact all_quiet_filter_nil _ quiet_not_retained new hq

/-- C6: over every execution of the scheduler from boot the retained publishes
are one-shot: the first-seed latch is set exactly when some connect has
succeeded; the trace then holds exactly one retained publish on the fill topic
and one on the lid topic (two retained publishes in all) and none before; an
iteration that starts with the latch set, reconnecting or not, publishes nothing
retained and leaves the latch set, as does every execution that follows; and
the lid controller and the fill estimator never publish retained. -/
theorem C6_retained_one_shot (ins : List TickInput) (inp : TickInput) (s : State)
    (avg : ℚ) (echoes : List Int) (duration : Int) :
    ((run ins boot).state.firstReadingSent =
      (run ins boot).state.trace.any Event.isConnectOk) ∧
    retainedOn TOPIC_FILL_LEVEL (run ins boot).state.trace =
      (if (run ins boot).state.trace.any Event.isConnectOk then 1 else 0) ∧
    retainedOn TOPIC_LID_STATE (run ins boot).state.trace =
      (if (run ins boot).state.trace.any Event.isConnectOk then 1 else 0) ∧
    ((run ins boot).state.trace.filter Event.isRetained).length =
      (if (run ins boot).state.trace.any Event.isConnectOk then 2 else 0) ∧
    (loop inp { s with firstReadingSent := true }).state.firstReadingSent = true ∧
    (emitted { s with firstReadingSent := true }
      (loop inp { s with firstReadingSent := true }).state).filter Event.isRetained = [] ∧
    (run ins { s with firstReadingSent := true }).state.firstReadingSent = true ∧
    (emitted s (lidControl avg s)).filter Event.isRetained = [] ∧
    (emitted s (checkProximityAndControlLid echoes s).state).filter Event.isRetained = [] ∧
    (emitted s (measureAndPublishFillLevel duration s)).filter Event.isRetained = [] := by
  obtain ⟨h1, h2, h3, h4⟩ := run_oneShot ins boot boot_oneShot
  rw [← h1]
  exact ⟨rfl, h2, h3, h4, (loop_latched inp _ rfl).1, (loop_latched inp _ rfl).2,
    run_latched ins _ rfl, quietStep_no_retained (lidControl_quiet avg s),
    quietStep_no_retained (checkProximityAndControlLid_quiet echoes s),
    quietStep_no_retained (measureAndPublishFillLevel_quiet duration s)⟩

/-- C5, at the failing input: after a round of failed connects in which the lid
was opened, the first successful connect of the execution publishes the
retained pair "20.0" and "OPEN"; no retained "CLOSED" is ever published, and
the latch is set.  When the first connect succeeds in the first iteration the
pair is "20.0" and "CLOSED", as the claim says. -/
theorem C5_seed_follows_lid_state :
    (run [failedRound] boot).state.trace.any Event.isConnectOk = false ∧
    (run [failedRound] boot).state.isLidOpen = true ∧
    (run [failedRound, connectingRound] boot).state.trace.filter Event.isRetained =
      [.publish TOPIC_FILL_LEVEL "20.0" true, .publish TOPIC_LID_STATE "OPEN" true] ∧
    Event.publish TOPIC_LID_STATE "CLOSED" true ∉
      (run [failedRound, connectingRound] boot).state.trace ∧
    (run [failedRound, connectingRound] boot).state.firstReadingSent = true ∧
    (run [firstTick] boot).state.trace.filter Event.isRetained =
      [.publish TOPIC_FILL_LEVEL "20.0" true, .publish TOPIC_LID_STATE "CLOSED" true] := by
  decide!

end SmartBin
